import Mathlib

/-!
Verification development for the `textract2page` converter
(`textract2page/convert_aws.py`): a shallow embedding of the converter's
data model and algorithms, with theorems checking the natural-language
specification against the code.

Numeric model: Python floats are IEEE-754 binary64 values.  We model
them as exact fractions (`Frac`, an integer numerator over a positive
natural denominator, kept unnormalized so that every operation is
kernel-computable), together with `roundDouble`, round-to-nearest-even
at 53 significant bits.  Every arithmetic operation the Python code
performs on floats (`+`, `*`, `/`) is modelled by the exact operation
followed by `roundDouble`, which is exactly IEEE-754 semantics for
values in the normal range (overflow and subnormals are outside the
range exercised by this converter and are not modelled).  Comparisons
of floats are exact comparisons of the represented values.
-/

/-- Exact fraction: `num / den` with `den` a positive natural number by
construction (all constructors below produce positive denominators). -/
structure Frac where
  num : ℤ
  den : ℕ
deriving DecidableEq

/-- Value order on fractions (valid for positive denominators). -/
def Frac.le (a b : Frac) : Prop := a.num * (b.den : ℤ) ≤ b.num * (a.den : ℤ)

/-- Strict value order on fractions. -/
def Frac.lt (a b : Frac) : Prop := a.num * (b.den : ℤ) < b.num * (a.den : ℤ)

instance : DecidableRel Frac.le := fun a b => by unfold Frac.le; infer_instance

instance : DecidableRel Frac.lt := fun a b => by unfold Frac.lt; infer_instance

/-- Value equality of fractions (Python `==` on floats compares values). -/
def Frac.valEq (a b : Frac) : Prop := a.num * (b.den : ℤ) = b.num * (a.den : ℤ)

instance (a b : Frac) : Decidable (a.valEq b) := by unfold Frac.valEq; infer_instance

/-- The integer `n` as a fraction. -/
def intFrac (n : ℤ) : Frac := ⟨n, 1⟩

/-- Exact addition of fractions. -/
def fadd (a b : Frac) : Frac := ⟨a.num * (b.den : ℤ) + b.num * (a.den : ℤ), a.den * b.den⟩

/-- Exact multiplication of fractions. -/
def fmul (a b : Frac) : Frac := ⟨a.num * b.num, a.den * b.den⟩

/-- Exact negation. -/
def fneg (a : Frac) : Frac := ⟨-a.num, a.den⟩

/-- Exact reciprocal (junk denominator 0 when `a.num = 0`; the code never
divides by zero on the paths we model). -/
def finv (a : Frac) : Frac := if a.num < 0 then ⟨-(a.den : ℤ), a.num.natAbs⟩ else ⟨(a.den : ℤ), a.num.natAbs⟩

/-- Exact division of fractions. -/
def fdiv (a b : Frac) : Frac := fmul a (finv b)

/-- Ceiling of the value of a fraction (floor division of the negation). -/
def fracCeil (a : Frac) : ℤ := -(Int.fdiv (-a.num) (a.den : ℤ))

/-- Fuel-driven base-2 logarithm on naturals (structural recursion, so the
kernel can evaluate it on literals). -/
def log2Fuel : ℕ → ℕ → ℕ
  | 0, _ => 0
  | f + 1, n => if 2 ≤ n then log2Fuel f (n / 2) + 1 else 0

/-- `floorLog2Nat n = ⌊log₂ n⌋` for `n ≥ 1` (and 0 for `n = 0`). -/
def floorLog2Nat (n : ℕ) : ℕ := log2Fuel n n

/-- `⌊log₂ q⌋` for a positive fraction `q`: if `2^p ≤ a < 2^(p+1)` and
`2^s ≤ b < 2^(s+1)` then `⌊log₂ (a/b)⌋` is `p - s` or `p - s - 1`,
decided by comparing `a/b` with `2^(p-s)`. -/
def fracFloorLog2 (q : Frac) : ℤ :=
  let a := q.num.natAbs
  let b := q.den
  let p := floorLog2Nat a
  let s := floorLog2Nat b
  if (b : ℤ) * 2 ^ p ≤ (a : ℤ) * 2 ^ s then (p : ℤ) - s else (p : ℤ) - s - 1

/-- Round a positive fraction to 53 significant bits, ties to even:
scale into `[2^52, 2^53)`, split into integer part and remainder, and
round the remainder. -/
def roundPos (q : Frac) : Frac :=
  let e : ℤ := fracFloorLog2 q - 52
  let mnum : ℤ := if 0 ≤ e then q.num else q.num * 2 ^ (-e).toNat
  let mden : ℤ := if 0 ≤ e then (q.den : ℤ) * 2 ^ e.toNat else (q.den : ℤ)
  let f : ℤ := Int.fdiv mnum mden
  let rem : ℤ := mnum - f * mden
  let m2 : ℤ :=
    if rem * 2 < mden then f
    else if mden < rem * 2 then f + 1
    else if f % 2 = 0 then f else f + 1
  if 0 ≤ e then ⟨m2 * 2 ^ e.toNat, 1⟩ else ⟨m2, 2 ^ (-e).toNat⟩

/-- Round an exact fraction to the nearest IEEE-754 binary64 value
(ties to even; overflow/subnormal range not modelled). -/
def roundDouble (q : Frac) : Frac :=
  if q.num = 0 then ⟨0, 1⟩
  else if q.num < 0 then fneg (roundPos (fneg q))
  else roundPos q

/-- Binary64 addition: exact sum, then rounding. -/
def dadd (a b : Frac) : Frac := roundDouble (fadd a b)

/-- Binary64 multiplication: exact product, then rounding. -/
def dmul (a b : Frac) : Frac := roundDouble (fmul a b)

/-- Binary64 division: exact quotient, then rounding. -/
def ddiv (a b : Frac) : Frac := roundDouble (fdiv a b)

/-- The binary64 value of the decimal literal `n / 10^k` (what Python's
JSON parser produces for a decimal number in the response). -/
def pyDec (n : ℤ) (k : ℕ) : Frac := roundDouble ⟨n, 10 ^ k⟩

/-! ## Errors

The Python code signals failure through exceptions.  We model each
crash site by the exception class Python would raise there; the spec's
abstract taxonomy (`GeometryError`, `MalformedBlockError`, ...) has no
counterpart in the code, which uses bare `assert` statements and
built-in exceptions throughout. -/

/-- Python exception classes raised by the converter's crash sites. -/
inductive ConvError where
  | assertionError
  | attributeError
  | keyError
  | valueError
  | typeError
  | indexError
deriving DecidableEq

deriving instance DecidableEq for Except

/-- Whether an `Except` computation succeeded. -/
def isOkE {ε α : Type} : Except ε α → Bool
  | .ok _ => true
  | .error _ => false

/-! ## Geometry model (`TextractPoint`, `TextractBoundingBox`,
`TextractPolygon`, `build_aws_geometry`, `points_from_aws_geometry`). -/

/-- `TextractPoint`: a normalized point; construction asserts both
coordinates lie in `[0, 1]`. -/
structure TextractPoint where
  x : Frac
  y : Frac
deriving DecidableEq

/-- `TextractBoundingBox`: a normalized bounding box. -/
structure TextractBoundingBox where
  left : Frac
  top : Frac
  width : Frac
  height : Frac
deriving DecidableEq

/-- `TextractPolygon`: a list of normalized points. -/
structure TextractPolygon where
  points : List TextractPoint
deriving DecidableEq

/-- A geometry is either a bounding box or a polygon (the two concrete
subclasses of `TextractGeometry`). -/
inductive TGeometry where
  | bbox (b : TextractBoundingBox)
  | poly (p : TextractPolygon)
deriving DecidableEq

/-- Raw `BoundingBox` JSON object: each key may be missing
(`bbox_dict.get(key, -1)` then defaults to `-1`). -/
structure AwsBBoxDict where
  left? : Option Frac
  top? : Option Frac
  width? : Option Frac
  height? : Option Frac
deriving DecidableEq

/-- Raw point JSON object (`point.get("X", -1)` defaults). -/
structure AwsPointDict where
  x? : Option Frac
  y? : Option Frac
deriving DecidableEq

/-- Raw `Geometry` JSON object: optional `Polygon` and `BoundingBox` keys. -/
structure AwsGeometryDict where
  polygon? : Option (List AwsPointDict)
  boundingBox? : Option AwsBBoxDict
deriving DecidableEq

/-- `TextractPoint.__post_init__`: assert both coordinates in `[0, 1]`. -/
def mkTextractPoint (x y : Frac) : Except ConvError TextractPoint :=
  if Frac.le (intFrac 0) x ∧ Frac.le x (intFrac 1) ∧ Frac.le (intFrac 0) y ∧ Frac.le y (intFrac 1)
  then .ok ⟨x, y⟩ else .error .assertionError

/-- `TextractBoundingBox.__init__` + `__post_init__`: read the four keys
(defaulting to `-1`), then assert each lies in `[0, 1]` and that the
float sums `width + left` and `height + top` do not exceed 1.  The sums
are computed in binary64 (`dadd`), exactly as Python evaluates
`self.width + self.left`. -/
def mkTextractBoundingBox (d : AwsBBoxDict) : Except ConvError TextractBoundingBox :=
  let l := d.left?.getD (intFrac (-1))
  let t := d.top?.getD (intFrac (-1))
  let w := d.width?.getD (intFrac (-1))
  let h := d.height?.getD (intFrac (-1))
  if Frac.le (intFrac 0) l ∧ Frac.le l (intFrac 1) ∧
     Frac.le (intFrac 0) t ∧ Frac.le t (intFrac 1) ∧
     Frac.le (intFrac 0) w ∧ Frac.le w (intFrac 1) ∧
     Frac.le (intFrac 0) h ∧ Frac.le h (intFrac 1) ∧
     Frac.le (dadd w l) (intFrac 1) ∧ Frac.le (dadd h t) (intFrac 1)
  then .ok ⟨l, t, w, h⟩ else .error .assertionError

/-- Build the point list of a polygon, validating each point. -/
def mkPolygonPoints : List AwsPointDict → Except ConvError (List TextractPoint)
  | [] => .ok []
  | p :: ps =>
    match mkTextractPoint (p.x?.getD (intFrac (-1))) (p.y?.getD (intFrac (-1))) with
    | .error e => .error e
    | .ok tp =>
      match mkPolygonPoints ps with
      | .error e => .error e
      | .ok tps => .ok (tp :: tps)

/-- `TextractPolygon.__init__` + `__post_init__`: build each point (each
asserting its bounds), then assert at least 3 points. -/
def mkTextractPolygon (ps : List AwsPointDict) : Except ConvError TextractPolygon :=
  match mkPolygonPoints ps with
  | .error e => .error e
  | .ok tps => if 3 ≤ tps.length then .ok ⟨tps⟩ else .error .assertionError

/-- `build_aws_geometry`: build the polygon geometry if a `"Polygon"` key
is present in the block's `Geometry` object, otherwise the bounding box
(`KeyError` if the `"BoundingBox"` key is also missing; `TypeError` if
the block has no `Geometry` object at all, from `"Polygon" in None`). -/
def build_aws_geometry (g? : Option AwsGeometryDict) : Except ConvError TGeometry :=
  match g? with
  | none => .error .typeError
  | some g =>
    match g.polygon? with
    | some pts =>
      match mkTextractPolygon pts with
      | .error e => .error e
      | .ok p => .ok (.poly p)
    | none =>
      match g.boundingBox? with
      | none => .error .keyError
      | some bd =>
        match mkTextractBoundingBox bd with
        | .error e => .error e
        | .ok b => .ok (.bbox b)

/-- `points_from_aws_geometry` registered on `TextractBoundingBox`:
four corner points, top-left, top-right, bottom-right, bottom-left,
each coordinate `math.ceil` of the binary64 product of the fraction and
the page dimension. -/
def points_from_bbox (g : TextractBoundingBox) (page_width page_height : ℤ) : String :=
  let x1 := fracCeil (dmul g.left (intFrac page_width))
  let y1 := fracCeil (dmul g.top (intFrac page_height))
  let x2 := fracCeil (dmul (dadd g.left g.width) (intFrac page_width))
  let y2 := y1
  let x3 := x2
  let y3 := fracCeil (dmul (dadd g.top g.height) (intFrac page_height))
  let x4 := x1
  let y4 := y3
  s!"{x1},{y1} {x2},{y2} {x3},{y3} {x4},{y4}"

/-- `points_from_aws_geometry` registered on `TextractPolygon`: one point
per vertex in original order. -/
def points_from_polygon (g : TextractPolygon) (page_width page_height : ℤ) : String :=
  String.intercalate " "
    (g.points.map (fun p => s!"{fracCeil (dmul p.x (intFrac page_width))},{fracCeil (dmul p.y (intFrac page_height))}"))

/-- The `singledispatch` entry point `points_from_aws_geometry`. -/
def points_from_aws_geometry : TGeometry → ℤ → ℤ → String
  | .bbox g, w, h => points_from_bbox g w h
  | .poly g, w, h => points_from_polygon g w h

/-- Specification-side view of the four corners of a bounding box, in
the claimed order top-left, top-right, bottom-right, bottom-left. -/
def bboxPixelCorners (g : TextractBoundingBox) (page_width page_height : ℤ) : List (ℤ × ℤ) :=
  let xl := fracCeil (dmul g.left (intFrac page_width))
  let yt := fracCeil (dmul g.top (intFrac page_height))
  let xr := fracCeil (dmul (dadd g.left g.width) (intFrac page_width))
  let yb := fracCeil (dmul (dadd g.top g.height) (intFrac page_height))
  [(xl, yt), (xr, yt), (xr, yb), (xl, yb)]

/-- Render one pixel point as `x,y`. -/
def renderPoint (p : ℤ × ℤ) : String := s!"{p.1},{p.2}"

/-- Render a list of pixel points separated by single spaces. -/
def renderPoints : List (ℤ × ℤ) → String
  | [] => ""
  | [p] => renderPoint p
  | p :: ps => renderPoint p ++ " " ++ renderPoints ps

/-! ## Raw blocks and the block registry -/

/-- One entry of a block's `Relationships` array. -/
structure AwsRel where
  type_ : String
  ids : List String
deriving DecidableEq

/-- A raw Textract block, with the fields the converter reads.  Optional
fields model keys that may be absent from the JSON object. -/
structure AwsBlock where
  id : String
  blockType : String
  geometry? : Option AwsGeometryDict
  confidence? : Option Frac
  text? : Option String
  textType? : Option String
  entityTypes : List String
  relationships : List AwsRel
  rowIndex? : Option ℤ
  columnIndex? : Option ℤ
  rowSpan? : Option ℤ
  columnSpan? : Option ℤ
  selectionStatus? : Option String
deriving DecidableEq

/-- `get_ids_of_child_blocks`: if no relationship of type `CHILD` exists,
return `[]`; otherwise return the `Ids` of the first `CHILD`-typed entry
(the Python code indexes the filtered list with `[0]`). -/
def get_ids_of_child_blocks (aws_block : AwsBlock) : List String :=
  if ¬ aws_block.relationships.any (fun rel => rel.type_ == "CHILD") then []
  else (((aws_block.relationships.filter (fun rel => rel.type_ == "CHILD")).map AwsRel.ids).headD [])

/-- Specification-side reading of C6: the child ids drawn from all
`CHILD`-typed relationship entries, concatenated in order. -/
def allChildIds (b : AwsBlock) : List String :=
  ((b.relationships.filter (fun rel => rel.type_ == "CHILD")).map AwsRel.ids).flatten

/-- Specification-side reformulation of the code: the `Ids` of the first
`CHILD`-typed relationship entry, if any. -/
def firstChildIds (b : AwsBlock) : List String :=
  ((b.relationships.find? (fun rel => rel.type_ == "CHILD")).map AwsRel.ids).getD []

/-! Ordered string-keyed maps with Python `dict` semantics: assignment
to an existing key updates the value in place (keeping the original
position), otherwise appends; iteration follows insertion order. -/

/-- Lookup in an ordered map. -/
def alGet? {α : Type} : List (String × α) → String → Option α
  | [], _ => none
  | (k, v) :: rest, key => if k = key then some v else alGet? rest key

/-- Python `dict` assignment. -/
def alInsert {α : Type} : List (String × α) → String → α → List (String × α)
  | [], key, v => [(key, v)]
  | (k, v') :: rest, key, v => if k = key then (k, v) :: rest else (k, v') :: alInsert rest key v

/-- Update the value at a key, if present. -/
def alUpdate {α : Type} (m : List (String × α)) (key : String) (f : α → α) : List (String × α) :=
  m.map (fun p => if p.1 = key then (p.1, f p.2) else p)

/-- `dict.values()` in insertion order. -/
def alValues {α : Type} (m : List (String × α)) : List α := m.map Prod.snd

/-- `dict.keys()` in insertion order. -/
def alKeys {α : Type} (m : List (String × α)) : List String := m.map Prod.fst

/-- The per-type block registry built by the first loop of
`convert_file_without_image`, plus the `block_order` index map and the
`page_block` truthiness flag. -/
structure Registry where
  pageSeen : Bool
  line_blocks : List (String × AwsBlock)
  word_blocks : List (String × AwsBlock)
  table_blocks : List (String × AwsBlock)
  cell_blocks : List (String × AwsBlock)
  merged_cell_blocks : List (String × AwsBlock)
  table_title_blocks : List (String × AwsBlock)
  table_footer_blocks : List (String × AwsBlock)
  selection_element_blocks : List (String × AwsBlock)
  key_value_set_blocks : List (String × AwsBlock)
  layout_blocks : List (String × AwsBlock)
  block_order : List (String × ℕ)

/-- The empty registry. -/
def emptyRegistry : Registry :=
  { pageSeen := false, line_blocks := [], word_blocks := [], table_blocks := [],
    cell_blocks := [], merged_cell_blocks := [], table_title_blocks := [],
    table_footer_blocks := [], selection_element_blocks := [],
    key_value_set_blocks := [], layout_blocks := [], block_order := [] }

/-- The pure part of one registry-loop iteration: record the block's
original index and file the block into the table its type selects (the
Python loop is a sequence of independent `if` statements over disjoint
dicts, written here as one parallel record update). -/
def registryUpd (reg : Registry) (i : ℕ) (b : AwsBlock) : Registry :=
  { pageSeen := if b.blockType = "PAGE" then true else reg.pageSeen,
    line_blocks := if b.blockType = "LINE" then alInsert reg.line_blocks b.id b else reg.line_blocks,
    word_blocks := if b.blockType = "WORD" then alInsert reg.word_blocks b.id b else reg.word_blocks,
    table_blocks := if b.blockType = "TABLE" then alInsert reg.table_blocks b.id b else reg.table_blocks,
    cell_blocks := if b.blockType = "CELL" then alInsert reg.cell_blocks b.id b else reg.cell_blocks,
    merged_cell_blocks := if b.blockType = "MERGED_CELL" then alInsert reg.merged_cell_blocks b.id b else reg.merged_cell_blocks,
    table_title_blocks := if b.blockType = "TABLE_TITLE" then alInsert reg.table_title_blocks b.id b else reg.table_title_blocks,
    table_footer_blocks := if b.blockType = "TABLE_FOOTER" then alInsert reg.table_footer_blocks b.id b else reg.table_footer_blocks,
    selection_element_blocks := if b.blockType = "SELECTION_ELEMENT" then alInsert reg.selection_element_blocks b.id b else reg.selection_element_blocks,
    key_value_set_blocks := if b.blockType = "KEY_VALUE_SET" then alInsert reg.key_value_set_blocks b.id b else reg.key_value_set_blocks,
    layout_blocks := if b.blockType.startsWith "LAYOUT_" then alInsert reg.layout_blocks b.id b else reg.layout_blocks,
    block_order := alInsert reg.block_order b.id i }

/-- One registry-loop iteration: `assert not page_block` fires when a
second `PAGE` block is met. -/
def registryStep (reg : Registry) (i : ℕ) (b : AwsBlock) : Except ConvError Registry :=
  if b.blockType = "PAGE" ∧ reg.pageSeen = true then .error .assertionError
  else .ok (registryUpd reg i b)

/-- The registry loop over the `Blocks` array. -/
def registryLoop : List AwsBlock → ℕ → Registry → Except ConvError Registry
  | [], _, reg => .ok reg
  | b :: bs, i, reg =>
    match registryStep reg i b with
    | .error e => .error e
    | .ok reg' => registryLoop bs (i + 1) reg'

/-- Build the block registry from the raw block list. -/
def buildRegistry (blocks : List AwsBlock) : Except ConvError Registry :=
  registryLoop blocks 0 emptyRegistry

/-- Number of `PAGE` blocks in the input. -/
def pageCount (blocks : List AwsBlock) : ℕ :=
  (blocks.filter (fun b => b.blockType == "PAGE")).length

/-! ## Entities and the entity graph -/

/-- Reference to a common cell: the owning table's id and the cell's
position in that table's `common_cells` list (this is how Python object
identity of a cell is represented here). -/
def CellRef : Type := String × ℕ
deriving instance DecidableEq for CellRef

/-- `TextractWord`. -/
structure TWord where
  id : String
  text? : Option String
  textType? : Option String
  geometry : TGeometry
  confidence : Frac
  parentLine? : Option String
  parentCell? : Option CellRef
  parentLayout? : Option String
  parentValue? : Option String
  parentKey? : Option String
deriving DecidableEq

/-- `TextractLine`. -/
structure TLine where
  id : String
  text? : Option String
  geometry : TGeometry
  confidence : Frac
  childWords : List String
  parentCell? : Option CellRef
  parentLayout? : Option String
  parentValue? : Option String
  parentKey? : Option String
deriving DecidableEq

/-- `TextractSelectionElement`. -/
structure TSel where
  id : String
  geometry : TGeometry
  confidence : Frac
  selected : Bool
  parentCellRef? : Option CellRef
  parentValueId? : Option String
deriving DecidableEq

/-- `TextractCommonCell` (row/column indices are stored 0-based, the
spans as given). -/
structure TCell where
  id : String
  geometry : TGeometry
  confidence : Frac
  rowIndex : ℤ
  columnIndex : ℤ
  rowSpan : ℤ
  columnSpan : ℤ
  columnHeader : Bool
  tableTitle : Bool
  tableFooter : Bool
  tableSectionTitle : Bool
  tableSummary : Bool
  childWords : List String
  childLines : List String
  childSels : List TSel
  parentMergedCell? : Option String
  parentTable : String
deriving DecidableEq

/-- `TextractMergedCell`: aggregates common cells (referenced by their
position in the owning table's `common_cells` list). -/
structure TMergedCell where
  id : String
  geometry : TGeometry
  confidence : Frac
  rowIndex : ℤ
  columnIndex : ℤ
  rowSpan : ℤ
  columnSpan : ℤ
  columnHeader : Bool
  tableTitle : Bool
  tableFooter : Bool
  tableSectionTitle : Bool
  tableSummary : Bool
  childCellIdxs : List ℕ
  childWords : List String
  childLines : List String
deriving DecidableEq

/-- `TextractTable`. -/
structure TTable where
  id : String
  geometry : TGeometry
  confidence : Frac
  structured : Bool
  commonCells : List TCell
  mergedCells : List TMergedCell
  orderedLines : List String
  rows : ℤ
  columns : ℤ
  parentLayout? : Option String
deriving DecidableEq

/-- `TextractValue`. -/
structure TValue where
  id : String
  geometry : TGeometry
  confidence : Frac
  childSels : List TSel
  associatedKey? : Option String
  childWords : List String
  childLines : List String
deriving DecidableEq

/-- `TextractKey`. -/
structure TKey where
  id : String
  geometry : TGeometry
  confidence : Frac
  childWords : List String
  childLines : List String
  associatedValues : List String
deriving DecidableEq

/-- An entry of a layout's `child_regions` list: a not-yet-resolved raw
layout block, or an already-built table/key/value entity (resolved
layout children become `layoutRef` in the second pass). -/
inductive ChildRegion where
  | raw (id : String)
  | layoutRef (id : String)
  | tableRef (id : String)
  | keyRef (id : String)
  | valueRef (id : String)
deriving DecidableEq

/-- The id carried by a `child_regions` entry. -/
def childRegionId : ChildRegion → String
  | .raw id => id
  | .layoutRef id => id
  | .tableRef id => id
  | .keyRef id => id
  | .valueRef id => id

/-- `TextractLayout`. -/
structure TLayout where
  id : String
  textractLayoutType : String
  pageLayoutType : String
  geometry : TGeometry
  confidence : Frac
  childWords : List String
  childLines : List String
  childRegions : List ChildRegion
  parentLayout? : Option String
deriving DecidableEq

/-- `TEXT_TYPE_MAP`. -/
def TEXT_TYPE_MAP : String → Option String
  | "PRINTED" => some "printed"
  | "HANDWRITING" => some "handwritten-cursive"
  | _ => none

/-- `LAYOUT_TYPE_MAP`. -/
def LAYOUT_TYPE_MAP : String → Option String
  | "LAYOUT_TITLE" => some "heading"
  | "LAYOUT_HEADER" => some "header"
  | "LAYOUT_FOOTER" => some "footer"
  | "LAYOUT_SECTION_HEADER" => some "heading"
  | "LAYOUT_PAGE_NUMBER" => some "page-number"
  | "LAYOUT_LIST" => some "other"
  | "LAYOUT_FIGURE" => some "other"
  | "LAYOUT_TABLE" => some "other"
  | "LAYOUT_KEY_VALUE_SET" => some "other"
  | "LAYOUT_TEXT" => some "paragraph"
  | _ => none

/-- The mutable object heap of the converter: all constructed entities,
keyed by id (for cells, by position inside their table).  `tables` and
`layouts` double as the Python dicts of the same names; `tablesDeleted`
and `layoutsDeleted` record `del` operations on those dicts (the
objects themselves stay reachable through references, so they stay in
the heap). -/
structure Env where
  words : List (String × TWord)
  lines : List (String × TLine)
  tables : List (String × TTable)
  values : List (String × TValue)
  keys : List (String × TKey)
  layouts : List (String × TLayout)
  tablesDeleted : List String
  layoutsDeleted : List String
  blockOrder : List (String × ℕ)

/-- The empty heap (with a given `block_order`). -/
def emptyEnv (blockOrder : List (String × ℕ)) : Env :=
  { words := [], lines := [], tables := [], values := [], keys := [],
    layouts := [], tablesDeleted := [], layoutsDeleted := [], blockOrder := blockOrder }

/-- `TextractBlock.__init__`: build the geometry (`TypeError` when the
block has no `Geometry` object) and the confidence
(`float(None)` raises `TypeError` when `Confidence` is missing;
`/ 100` is a float division). -/
def blockBase (b : AwsBlock) : Except ConvError (TGeometry × Frac) :=
  match build_aws_geometry b.geometry? with
  | .error e => .error e
  | .ok g =>
    match b.confidence? with
    | none => .error .typeError
    | some c => .ok (g, ddiv c (intFrac 100))

/-- Read a required integer field (`block["RowIndex"]` raises `KeyError`
when missing). -/
def reqField (v : Option ℤ) : Except ConvError ℤ :=
  match v with
  | none => .error .keyError
  | some n => .ok n

/-- Set a word's `parent_line` back-reference. -/
def setWordParentLine (env : Env) (wid lid : String) : Env :=
  { env with words := alUpdate env.words wid (fun w => { w with parentLine? := some lid }) }

/-- Set a word's `parent_cell` back-reference. -/
def setWordParentCell (env : Env) (wid : String) (c : CellRef) : Env :=
  { env with words := alUpdate env.words wid (fun w => { w with parentCell? := some c }) }

/-- Set a word's `parent_layout` back-reference. -/
def setWordParentLayout (env : Env) (wid lid : String) : Env :=
  { env with words := alUpdate env.words wid (fun w => { w with parentLayout? := some lid }) }

/-- Set a word's `parent_value` back-reference. -/
def setWordParentValue (env : Env) (wid vid : String) : Env :=
  { env with words := alUpdate env.words wid (fun w => { w with parentValue? := some vid }) }

/-- Set a word's `parent_key` back-reference. -/
def setWordParentKey (env : Env) (wid kid : String) : Env :=
  { env with words := alUpdate env.words wid (fun w => { w with parentKey? := some kid }) }

/-- Set a line's `parent_cell` back-reference. -/
def setLineParentCell (env : Env) (lid : String) (c : CellRef) : Env :=
  { env with lines := alUpdate env.lines lid (fun l => { l with parentCell? := some c }) }

/-- Set a line's `parent_layout` back-reference. -/
def setLineParentLayout (env : Env) (lid pid : String) : Env :=
  { env with lines := alUpdate env.lines lid (fun l => { l with parentLayout? := some pid }) }

/-- Set a line's `parent_value` back-reference. -/
def setLineParentValue (env : Env) (lid vid : String) : Env :=
  { env with lines := alUpdate env.lines lid (fun l => { l with parentValue? := some vid }) }

/-- Set a line's `parent_key` back-reference. -/
def setLineParentKey (env : Env) (lid kid : String) : Env :=
  { env with lines := alUpdate env.lines lid (fun l => { l with parentKey? := some kid }) }

/-- `TextractWord.__init__`. -/
def mkTextractWord (b : AwsBlock) : Except ConvError TWord :=
  match blockBase b with
  | .error e => .error e
  | .ok gc =>
    .ok { id := b.id, text? := b.text?, textType? := b.textType?.bind TEXT_TYPE_MAP,
          geometry := gc.1, confidence := gc.2, parentLine? := none, parentCell? := none,
          parentLayout? := none, parentValue? := none, parentKey? := none }

/-- The word-attaching loop of `TextractLine.__init__`: the child-word
list is built without filtering, so a child id that is not a word in
`wordsD` is `None` and `None.parent_line = self` raises
`AttributeError`. -/
def lineAttachWords (wordsD : List (String × TWord)) (lid : String) :
    List String → Env → Except ConvError Env
  | [], env => .ok env
  | wid :: rest, env =>
    match alGet? wordsD wid with
    | none => .error .attributeError
    | some _ => lineAttachWords wordsD lid rest (setWordParentLine env wid lid)

/-- `TextractLine.__init__` (the second argument is the word dict the
caller passes; for dummy lines Python passes `{}`). -/
def mkTextractLine (b : AwsBlock) (wordsD : List (String × TWord)) (env : Env) :
    Except ConvError (TLine × Env) :=
  match blockBase b with
  | .error e => .error e
  | .ok gc =>
    match lineAttachWords wordsD b.id (get_ids_of_child_blocks b) env with
    | .error e => .error e
    | .ok env' =>
      .ok ({ id := b.id, text? := b.text?, geometry := gc.1, confidence := gc.2,
             childWords := get_ids_of_child_blocks b, parentCell? := none,
             parentLayout? := none, parentValue? := none, parentKey? := none }, env')

/-- Dedup-collecting the `parent_line` of each child word
(`if not word.parent_line in self.child_lines: append`), starting from
an initial list (layouts start from their direct line children, cells
from the empty list).  `None` is collected like any other entry. -/
def collectParentLines (wordsD : List (String × TWord)) (wordIds : List String)
    (init : List (Option String)) : List (Option String) :=
  wordIds.foldl (fun acc wid =>
    let pl := (alGet? wordsD wid).bind TWord.parentLine?
    if pl ∈ acc then acc else acc ++ [pl]) init

/-- `TextractSelectionElement.__init__`. -/
def mkTextractSelectionElement (b : AwsBlock) (pc : Option CellRef) (pv : Option String) :
    Except ConvError TSel :=
  match blockBase b with
  | .error e => .error e
  | .ok gc =>
    .ok { id := b.id, geometry := gc.1, confidence := gc.2,
          selected := b.selectionStatus? == some "SELECTED",
          parentCellRef? := pc, parentValueId? := pv }

/-- Build the selection elements among a child-id list
(`if aws_selection_element_blocks.get(id)` filters silently). -/
def buildSels (selB : List (String × AwsBlock)) (pc : Option CellRef) (pv : Option String) :
    List String → Except ConvError (List TSel)
  | [] => .ok []
  | id :: rest =>
    match alGet? selB id with
    | none => buildSels selB pc pv rest
    | some sb =>
      match mkTextractSelectionElement sb pc pv with
      | .error e => .error e
      | .ok s =>
        match buildSels selB pc pv rest with
        | .error e => .error e
        | .ok ss => .ok (s :: ss)

/-- `TextractCommonCell.__init__` (via `TextractCell.__init__`):
geometry and confidence, required numeric fields (`KeyError` when
missing), role flags, filtered child words with `parent_cell`
back-references, derived child lines (a child word without a parent
line makes the line list contain `None`, and `None.parent_cell = self`
raises `AttributeError`), and child selection elements. -/
def mkTextractCommonCell (b : AwsBlock) (tableId : String) (idx : ℕ)
    (selB : List (String × AwsBlock)) (env : Env) : Except ConvError (TCell × Env) :=
  match blockBase b with
  | .error e => .error e
  | .ok gc =>
    match reqField b.rowIndex?, reqField b.columnIndex?, reqField b.rowSpan?, reqField b.columnSpan? with
    | .ok ri, .ok ci, .ok rs, .ok cs =>
      let childWordIds := (get_ids_of_child_blocks b).filter (fun id => (alGet? env.words id).isSome)
      let env1 := childWordIds.foldl (fun e wid => setWordParentCell e wid (tableId, idx)) env
      let lineOpts := collectParentLines env.words childWordIds []
      if none ∈ lineOpts then .error .attributeError
      else
        let lineIds := lineOpts.reduceOption
        let env2 := lineIds.foldl (fun e lid => setLineParentCell e lid (tableId, idx)) env1
        match buildSels selB (some (tableId, idx)) none (get_ids_of_child_blocks b) with
        | .error e => .error e
        | .ok sels =>
          .ok ({ id := b.id, geometry := gc.1, confidence := gc.2,
                 rowIndex := ri - 1, columnIndex := ci - 1, rowSpan := rs, columnSpan := cs,
                 columnHeader := b.entityTypes.contains "COLUMN_HEADER",
                 tableTitle := b.entityTypes.contains "TABLE_TITLE",
                 tableFooter := b.entityTypes.contains "TABLE_FOOTER",
                 tableSectionTitle := b.entityTypes.contains "TABLE_SECTION_TITLE",
                 tableSummary := b.entityTypes.contains "TABLE_SUMMARY",
                 childWords := childWordIds, childLines := lineIds, childSels := sels,
                 parentMergedCell? := none, parentTable := tableId }, env2)
    | .error e, _, _, _ => .error e
    | _, .error e, _, _ => .error e
    | _, _, .error e, _ => .error e
    | _, _, _, .error e => .error e

/-- The common-cell loop of `TextractTable.__init__`: child ids that are
not `CELL` blocks are skipped silently, the rest are built in order
(the position index is how we name each constructed cell object). -/
def buildCommonCells (cell_blocks : List (String × AwsBlock)) (tableId : String)
    (selB : List (String × AwsBlock)) :
    List String → ℕ → Env → Except ConvError (List TCell × Env)
  | [], _, env => .ok ([], env)
  | id :: rest, idx, env =>
    match alGet? cell_blocks id with
    | none => buildCommonCells cell_blocks tableId selB rest idx env
    | some cb =>
      match mkTextractCommonCell cb tableId idx selB env with
      | .error e => .error e
      | .ok (c, env') =>
        match buildCommonCells cell_blocks tableId selB rest (idx + 1) env' with
        | .error e => .error e
        | .ok (cs, env'') => .ok (c :: cs, env'')

/-- All indices of common cells whose id equals `cid`, in order (the
Python inner loop appends every match and marks each one). -/
def matchingCellIdxs (cs : List TCell) (cid : String) : List ℕ :=
  (cs.enum.filter (fun p => p.2.id == cid)).map Prod.fst

/-- `TextractMergedCell.__init__`: required numeric fields and flags,
then adopt every common cell of the parent table whose id occurs in the
child list (setting `parent_merged_cell`), and aggregate their words
and lines. -/
def mkTextractMergedCell (b : AwsBlock) (commons : List TCell) :
    Except ConvError (TMergedCell × List TCell) :=
  match blockBase b with
  | .error e => .error e
  | .ok gc =>
    match reqField b.rowIndex?, reqField b.columnIndex?, reqField b.rowSpan?, reqField b.columnSpan? with
    | .ok ri, .ok ci, .ok rs, .ok cs =>
      let childIds := get_ids_of_child_blocks b
      let idxs := childIds.flatMap (fun cid => matchingCellIdxs commons cid)
      let commons' := commons.map (fun c => if childIds.contains c.id then { c with parentMergedCell? := some b.id } else c)
      .ok ({ id := b.id, geometry := gc.1, confidence := gc.2,
             rowIndex := ri - 1, columnIndex := ci - 1, rowSpan := rs, columnSpan := cs,
             columnHeader := b.entityTypes.contains "COLUMN_HEADER",
             tableTitle := b.entityTypes.contains "TABLE_TITLE",
             tableFooter := b.entityTypes.contains "TABLE_FOOTER",
             tableSectionTitle := b.entityTypes.contains "TABLE_SECTION_TITLE",
             tableSummary := b.entityTypes.contains "TABLE_SUMMARY",
             childCellIdxs := idxs,
             childWords := (idxs.map (fun j => ((commons'.get? j).map TCell.childWords).getD [])).flatten,
             childLines := (idxs.map (fun j => ((commons'.get? j).map TCell.childLines).getD [])).flatten },
           commons')
    | .error e, _, _, _ => .error e
    | _, .error e, _, _ => .error e
    | _, _, .error e, _ => .error e
    | _, _, _, .error e => .error e

/-- The merged-cell loop of `TextractTable.__init__` (child ids not in
the merged-cell registry are skipped silently). -/
def buildMergedCells (merged_cell_blocks : List (String × AwsBlock)) :
    List String → List TCell → Except ConvError (List TMergedCell × List TCell)
  | [], commons => .ok ([], commons)
  | id :: rest, commons =>
    match alGet? merged_cell_blocks id with
    | none => buildMergedCells merged_cell_blocks rest commons
    | some mb =>
      match mkTextractMergedCell mb commons with
      | .error e => .error e
      | .ok (m, commons') =>
        match buildMergedCells merged_cell_blocks rest commons' with
        | .error e => .error e
        | .ok (ms, commons'') => .ok (m :: ms, commons'')

/-- Python `max` over a list of integers (`ValueError` on the empty
list is handled at the call site). -/
def listMax : List ℤ → Option ℤ
  | [] => none
  | x :: xs =>
    match listMax xs with
    | none => some x
    | some m => some (max x m)

/-- `TextractTable.__init__`: the `structured` flag, the common cells
(filtered child ids), the merged cells, the concatenated cell lines,
and the derived `rows`/`columns` counts, `max(indices) + 1`
(`ValueError` when the table has no resolvable `CELL` child, because
`max` is taken over an empty list). -/
def mkTextractTable (b : AwsBlock)
    (cell_blocks merged_cell_blocks table_title_blocks table_footer_blocks
      selection_element_blocks : List (String × AwsBlock))
    (env : Env) : Except ConvError (TTable × Env) :=
  match blockBase b with
  | .error e => .error e
  | .ok gc =>
    match buildCommonCells cell_blocks b.id selection_element_blocks
        (get_ids_of_child_blocks b) 0 env with
    | .error e => .error e
    | .ok (commons, env1) =>
      match buildMergedCells merged_cell_blocks (get_ids_of_child_blocks b) commons with
      | .error e => .error e
      | .ok (merged, commons') =>
        match listMax (commons'.map TCell.rowIndex), listMax (commons'.map TCell.columnIndex) with
        | some mr, some mc =>
          .ok ({ id := b.id, geometry := gc.1, confidence := gc.2,
                 structured := b.entityTypes.contains "STRUCTURED_TABLE",
                 commonCells := commons', mergedCells := merged,
                 orderedLines := (commons'.map TCell.childLines).flatten,
                 rows := mr + 1, columns := mc + 1, parentLayout? := none }, env1)
        | _, _ => .error .valueError

/-- `TextractValue.__init__`: requires the `VALUE` entity type
(`ValueError` otherwise), builds selection elements and filtered child
words/lines with back-references (`AttributeError` if a child word has
no parent line, from `None.parent_value = self`). -/
def mkTextractValue (b : AwsBlock) (selB : List (String × AwsBlock)) (env : Env) :
    Except ConvError (TValue × Env) :=
  match blockBase b with
  | .error e => .error e
  | .ok gc =>
    if ¬ b.entityTypes.contains "VALUE" then .error .valueError
    else
      match buildSels selB none (some b.id) (get_ids_of_child_blocks b) with
      | .error e => .error e
      | .ok sels =>
        let childWordIds := (get_ids_of_child_blocks b).filter (fun id => (alGet? env.words id).isSome)
        let env1 := childWordIds.foldl (fun e wid => setWordParentValue e wid b.id) env
        let lineOpts := collectParentLines env.words childWordIds []
        if none ∈ lineOpts then .error .attributeError
        else
          let lineIds := lineOpts.reduceOption
          let env2 := lineIds.foldl (fun e lid => setLineParentValue e lid b.id) env1
          .ok ({ id := b.id, geometry := gc.1, confidence := gc.2, childSels := sels,
                 associatedKey? := none, childWords := childWordIds, childLines := lineIds }, env2)

/-- The value-adoption loop of `TextractKey.__init__`: each associated
value id is looked up without filtering, so a missing value raises
`AttributeError` (`None.associated_key = self`); present values get
their `associated_key` back-reference. -/
def keyAdoptValues (kid : String) : List String → Env → Except ConvError Env
  | [], env => .ok env
  | vid :: rest, env =>
    match alGet? env.values vid with
    | none => .error .attributeError
    | some _ =>
      keyAdoptValues kid rest
        { env with values := alUpdate env.values vid (fun v => { v with associatedKey? := some kid }) }

/-- `TextractKey.__init__`: requires the `KEY` entity type, reads the
ids of the first `VALUE`-typed relationship entry, adopts those values,
then builds filtered child words/lines with back-references. -/
def mkTextractKey (b : AwsBlock) (env : Env) : Except ConvError (TKey × Env) :=
  match blockBase b with
  | .error e => .error e
  | .ok gc =>
    if ¬ b.entityTypes.contains "KEY" then .error .valueError
    else
      let assocIds :=
        match b.relationships.find? (fun rel => rel.type_ == "VALUE") with
        | none => []
        | some r => r.ids
      match keyAdoptValues b.id assocIds env with
      | .error e => .error e
      | .ok env1 =>
        let childWordIds := (get_ids_of_child_blocks b).filter (fun id => (alGet? env1.words id).isSome)
        let env2 := childWordIds.foldl (fun e wid => setWordParentKey e wid b.id) env1
        let lineOpts := collectParentLines env1.words childWordIds []
        if none ∈ lineOpts then .error .attributeError
        else
          let lineIds := lineOpts.reduceOption
          let env3 := lineIds.foldl (fun e lid => setLineParentKey e lid b.id) env2
          .ok ({ id := b.id, geometry := gc.1, confidence := gc.2,
                 childWords := childWordIds, childLines := lineIds,
                 associatedValues := assocIds }, env3)

/-- Lookup into the combined child registry
`dict(layout_blocks, **tables, **keys, **values)` a layout's
`child_regions` are resolved against; later keyword entries override
earlier ones. -/
def combinedLookup (layoutIds tableIds keyIds valueIds : List String) (id : String) :
    Option ChildRegion :=
  if valueIds.contains id then some (.valueRef id)
  else if keyIds.contains id then some (.keyRef id)
  else if tableIds.contains id then some (.tableRef id)
  else if layoutIds.contains id then some (.raw id)
  else none

/-- `TextractLayout.__init__`: layout-type mapping, filtered child
words (with `parent_layout` back-references), child lines — the direct
line children plus each child word's parent line, deduplicated, where a
lineless child word contributes `None` and `None.parent_layout = self`
raises `AttributeError` — and the unresolved child regions. -/
def mkTextractLayout (b : AwsBlock) (combined : String → Option ChildRegion)
    (wordsD : List (String × TWord)) (linesD : List (String × TLine)) (env : Env) :
    Except ConvError (TLayout × Env) :=
  match blockBase b with
  | .error e => .error e
  | .ok gc =>
    let childIds := get_ids_of_child_blocks b
    let childWordIds := childIds.filter (fun id => (alGet? wordsD id).isSome)
    let env1 := childWordIds.foldl (fun e wid => setWordParentLayout e wid b.id) env
    let lineIds0 := (childIds.filter (fun id => (alGet? linesD id).isSome)).map some
    let lineOpts := collectParentLines wordsD childWordIds lineIds0
    if none ∈ lineOpts then .error .attributeError
    else
      let lineIds := lineOpts.reduceOption
      let env2 := lineIds.foldl (fun e lid => setLineParentLayout e lid b.id) env1
      .ok ({ id := b.id, textractLayoutType := b.blockType,
             pageLayoutType := (LAYOUT_TYPE_MAP b.blockType).getD "floating",
             geometry := gc.1, confidence := gc.2,
             childWords := childWordIds, childLines := lineIds,
             childRegions := childIds.filterMap combined,
             parentLayout? := none }, env2)

/-! ## Building the entity graph (`convert_file_without_image`, setup) -/

/-- `words[word_id] = TextractWord(word_block)` over all word blocks. -/
def buildWords : List (String × AwsBlock) → Env → Except ConvError Env
  | [], env => .ok env
  | (id, b) :: rest, env =>
    match mkTextractWord b with
    | .error e => .error e
    | .ok w => buildWords rest { env with words := alInsert env.words id w }

/-- `lines[line_id] = TextractLine(line_block, words)` over all line blocks. -/
def buildLines : List (String × AwsBlock) → Env → Except ConvError Env
  | [], env => .ok env
  | (id, b) :: rest, env =>
    match mkTextractLine b env.words env with
    | .error e => .error e
    | .ok (l, env') => buildLines rest { env' with lines := alInsert env'.lines id l }

/-- The table-building loop. -/
def buildTables (reg : Registry) : List (String × AwsBlock) → Env → Except ConvError Env
  | [], env => .ok env
  | (id, b) :: rest, env =>
    match mkTextractTable b reg.cell_blocks reg.merged_cell_blocks reg.table_title_blocks
        reg.table_footer_blocks reg.selection_element_blocks env with
    | .error e => .error e
    | .ok (t, env') => buildTables reg rest { env' with tables := alInsert env'.tables id t }

/-- The value-building loop (only `KEY_VALUE_SET` blocks whose
`EntityTypes` contains `VALUE`). -/
def buildValues (reg : Registry) : List (String × AwsBlock) → Env → Except ConvError Env
  | [], env => .ok env
  | (id, b) :: rest, env =>
    if b.entityTypes.contains "VALUE" then
      match mkTextractValue b reg.selection_element_blocks env with
      | .error e => .error e
      | .ok (v, env') => buildValues reg rest { env' with values := alInsert env'.values id v }
    else buildValues reg rest env

/-- The key-building loop (only `KEY_VALUE_SET` blocks whose
`EntityTypes` contains `KEY`). -/
def buildKeys (reg : Registry) : List (String × AwsBlock) → Env → Except ConvError Env
  | [], env => .ok env
  | (id, b) :: rest, env =>
    if b.entityTypes.contains "KEY" then
      match mkTextractKey b env with
      | .error e => .error e
      | .ok (k, env') => buildKeys reg rest { env' with keys := alInsert env'.keys id k }
    else buildKeys reg rest env

/-- The layout-building loop; every iteration resolves children against
the same combined registry snapshot. -/
def buildLayouts (combined : String → Option ChildRegion) :
    List (String × AwsBlock) → Env → Except ConvError Env
  | [], env => .ok env
  | (id, b) :: rest, env =>
    match mkTextractLayout b combined env.words env.lines env with
    | .error e => .error e
    | .ok (l, env') => buildLayouts combined rest { env' with layouts := alInsert env'.layouts id l }

/-- Whether an id is currently a key of the `layouts` dict (in the heap
and not yet `del`eted). -/
def layoutDictHas (env : Env) (id : String) : Bool :=
  (alGet? env.layouts id).isSome && !(env.layoutsDeleted.contains id)

/-- Whether an id is currently a key of the `tables` dict. -/
def tableDictHas (env : Env) (id : String) : Bool :=
  (alGet? env.tables id).isSome && !(env.tablesDeleted.contains id)

/-- One step of the recursive-layout pass for the region at index `i` of
layout `lid`: a raw (dict) child must still be a key of `layouts`
(`assert child_id in layouts`), is resolved in place, re-parented, and
`del`eted from the dict; an entity child whose id is a key of `tables`
is re-parented and `del`eted from the `tables` dict; everything else is
left alone. -/
def processRegion (lid : String) (i : ℕ) (env : Env) : Except ConvError Env :=
  match (alGet? env.layouts lid).bind (fun lay => lay.childRegions.get? i) with
  | none => .ok env
  | some (.raw cid) =>
    if layoutDictHas env cid then
      let ls1 := alUpdate env.layouts lid
        (fun lay => { lay with childRegions := lay.childRegions.set i (.layoutRef cid) })
      let ls2 := alUpdate ls1 cid (fun clay => { clay with parentLayout? := some lid })
      .ok { env with layouts := ls2, layoutsDeleted := cid :: env.layoutsDeleted }
    else .error .assertionError
  | some cr =>
    let r := childRegionId cr
    if tableDictHas env r then
      .ok { env with tables := alUpdate env.tables r (fun t => { t with parentLayout? := some lid }),
                     tablesDeleted := r :: env.tablesDeleted }
    else .ok env

/-- Process all region indices of one layout. -/
def processRegions (lid : String) : List ℕ → Env → Except ConvError Env
  | [], env => .ok env
  | i :: rest, env =>
    match processRegion lid i env with
    | .error e => .error e
    | .ok env' => processRegions lid rest env'

/-- The recursive-layout pass over a snapshot of the `layouts` dict. -/
def recursiveLayoutPass : List String → Env → Except ConvError Env
  | [], env => .ok env
  | lid :: rest, env =>
    let n := (((alGet? env.layouts lid).map (fun lay => lay.childRegions.length)).getD 0)
    match processRegions lid (List.range n) env with
    | .error e => .error e
    | .ok env' => recursiveLayoutPass rest env'

/-- The dangling-word pass: a word with no parent line, cell or layout
takes the dummy-line branch, which ends in `lines.append(dummy)` —
but `lines` is a dict, so this raises `AttributeError` whenever such a
word exists. -/
def dummyWordPass : List TWord → Except ConvError Unit
  | [] => .ok ()
  | w :: rest =>
    if w.parentLine?.isNone ∧ w.parentCell?.isNone ∧ w.parentLayout?.isNone
    then .error .attributeError
    else dummyWordPass rest

/-- The dangling-line pass: every line with no parent cell and no parent
layout gets a dummy `LAYOUT_DUMMY` layout built from a copy of its own
block, whose only child line is the line itself; the dummy inherits the
line's `block_order` entry and is added to the `layouts` dict. -/
def dummyLinePass (line_blocks : List (String × AwsBlock)) :
    List String → Env → Except ConvError Env
  | [], env => .ok env
  | lid :: rest, env =>
    match alGet? env.lines lid with
    | none => dummyLinePass line_blocks rest env
    | some line =>
      if line.parentCell?.isSome ∨ line.parentLayout?.isSome then
        dummyLinePass line_blocks rest env
      else
        match alGet? line_blocks lid with
        | none => .error .keyError
        | some lb =>
          let b' := { lb with id := lid ++ "_parent", blockType := "LAYOUT_DUMMY" }
          match mkTextractLayout b' (fun _ => none) [] [] env with
          | .error e => .error e
          | .ok (lay, env1) =>
            let lay' := { lay with childLines := [lid] }
            let env2 := setLineParentLayout env1 lid lay'.id
            let env3 := { env2 with
              layouts := alInsert env2.layouts lay'.id lay',
              blockOrder := alInsert env2.blockOrder lay'.id ((alGet? env2.blockOrder lid).getD 0) }
            dummyLinePass line_blocks rest env3

/-! ## Reading order (`derive_reading_order` and the layout-order
reconciliation) -/

/-- A top-level reading-order entity, as Python object identity: the
kind of dict the entity was built into, plus its id. -/
inductive TopRef where
  | table (id : String)
  | value (id : String)
  | key (id : String)
  | layout (id : String)
deriving DecidableEq

/-- The id carried by a top-level reference. -/
def topRefId : TopRef → String
  | .table id => id
  | .value id => id
  | .key id => id
  | .layout id => id

/-- `next((parent for parent in [...] if parent), False)`. -/
def firstSome : List (Option TopRef) → Option TopRef
  | [] => none
  | some x :: _ => some x
  | none :: rest => firstSome rest

/-- The four-entry candidate list of `derive_reading_order`: the cell's
table (when a parent cell exists), then the value, key and layout
parents, in that order. -/
def complexOwnerFrom (pc : Option CellRef) (pv pk pl : Option String) : Option TopRef :=
  firstSome [pc.map (fun c => TopRef.table c.1), pv.map TopRef.value, pk.map TopRef.key,
             pl.map TopRef.layout]

/-- Specification-side reading of the same resolution, written as the
claimed preference cascade: table-of-cell first, then value, then key,
then layout. -/
def specComplexOwner (pc : Option CellRef) (pv pk pl : Option String) : Option TopRef :=
  match pc with
  | some c => some (.table c.1)
  | none =>
    match pv with
    | some v => some (.value v)
    | none =>
      match pk with
      | some k => some (.key k)
      | none => pl.map .layout

/-- The top-level owner reached through a word's line, if any. -/
def lineOwner (lineOf : String → Option TLine) (w : TWord) : Option TopRef :=
  match w.parentLine? with
  | none => none
  | some lid =>
    match lineOf lid with
    | none => none
    | some ln => complexOwnerFrom ln.parentCell? ln.parentValue? ln.parentKey? ln.parentLayout?

/-- The top-level owner reached through the word's own parents, if any. -/
def wordOwner (w : TWord) : Option TopRef :=
  complexOwnerFrom w.parentCell? w.parentValue? w.parentKey? w.parentLayout?

/-- Append an owner if it is new (`if parent not in list: append`). -/
def appendNew (acc : List TopRef) : Option TopRef → List TopRef
  | none => acc
  | some p => if p ∈ acc then acc else acc ++ [p]

/-- `derive_reading_order`: iterate the words, and for each append the
owner reached through its line (when it has a line), then the owner
reached through the word itself, each only when not already collected. -/
def derive_reading_order (lineOf : String → Option TLine) (word_list : List TWord) :
    List TopRef :=
  word_list.foldl (fun acc w => appendNew (appendNew acc (lineOwner lineOf w)) (wordOwner w)) []

/-- The owner stream a word list generates: for each word, the
line-resolved owner (if any) followed by the word-resolved owner (if
any). -/
def ownerStream (lineOf : String → Option TLine) (word_list : List TWord) : List TopRef :=
  word_list.flatMap (fun w => (lineOwner lineOf w).toList ++ (wordOwner w).toList)

/-- First-seen deduplication of a list. -/
def firstSeen (l : List TopRef) : List TopRef :=
  l.foldl (fun acc p => if p ∈ acc then acc else acc ++ [p]) []

/-- Structural (value) equality of two geometries, as Python's dataclass
`==` compares them: same kind and equal coordinate values. -/
def fracEqB (a b : Frac) : Bool := decide (a.valEq b)

/-- Pointwise value equality of point lists. -/
def pointsEqB : List TextractPoint → List TextractPoint → Bool
  | [], [] => true
  | p :: ps, q :: qs => fracEqB p.x q.x && fracEqB p.y q.y && pointsEqB ps qs
  | _, _ => false

/-- Geometry equality (`layout.geometry == table.geometry`). -/
def geomEqB : TGeometry → TGeometry → Bool
  | .bbox a, .bbox b =>
    fracEqB a.left b.left && fracEqB a.top b.top && fracEqB a.width b.width && fracEqB a.height b.height
  | .poly a, .poly b => pointsEqB a.points b.points
  | _, _ => false

/-- First index of an element in a list (`list.index`, `None` for the
`ValueError` case). -/
def idxOfEq : TopRef → List TopRef → Option ℕ
  | _, [] => none
  | x, y :: ys => if y = x then some 0 else (idxOfEq x ys).map (· + 1)

/-- Geometry lookup for a top-level reference, from the heap. -/
def geomOfEnv (env : Env) : TopRef → Option TGeometry
  | .table id => (alGet? env.tables id).map TTable.geometry
  | .value id => (alGet? env.values id).map TValue.geometry
  | .key id => (alGet? env.keys id).map TKey.geometry
  | .layout id => (alGet? env.layouts id).map TLayout.geometry

/-- Whether two references' geometries compare equal (both must
resolve; unresolvable references — which the pipeline never produces —
compare unequal). -/
def geomMatchB (geomOf : TopRef → Option TGeometry) (r t : TopRef) : Bool :=
  match geomOf r, geomOf t with
  | some a, some b => geomEqB a b
  | _, _ => false

/-- One table-reconciliation step, transcribing the Python loop body:
scan `layout_regions` for the first region with geometry equal to the
table's and replace it in place (`layout_regions.index(layout)` finds
that region's position); otherwise find the table in the word-order
`text_regions` (`ValueError` if absent), pick its predecessor — or,
when it is first, its successor (`IndexError` when there is none) — and
splice the table in at that neighbour's position in `layout_regions`
plus one. -/
def reconcileStep (geomOf : TopRef → Option TGeometry) (text_regions : List TopRef)
    (regions : List TopRef) (t : TopRef) : Except ConvError (List TopRef) :=
  match regions.find? (fun r => geomMatchB geomOf r t) with
  | some hit =>
    match idxOfEq hit regions with
    | none => .error .valueError
    | some i => .ok (regions.set i t)
  | none =>
    match idxOfEq t text_regions with
    | none => .error .valueError
    | some tp =>
      if 0 < tp then
        match text_regions.get? (tp - 1) with
        | none => .error .indexError
        | some prev =>
          match idxOfEq prev regions with
          | none => .error .valueError
          | some q => .ok (regions.take (q + 1) ++ t :: regions.drop (q + 1))
      else
        match text_regions.get? (tp + 1) with
        | none => .error .indexError
        | some succ =>
          match idxOfEq succ regions with
          | none => .error .valueError
          | some q => .ok (regions.take (q + 1) ++ t :: regions.drop (q + 1))

/-- The table-reconciliation loop over the tables in dict order. -/
def reconcileTables (geomOf : TopRef → Option TGeometry) (text_regions : List TopRef) :
    List TopRef → List TopRef → Except ConvError (List TopRef)
  | regions, [] => .ok regions
  | regions, t :: rest =>
    match reconcileStep geomOf text_regions regions t with
    | .error e => .error e
    | .ok regions' => reconcileTables geomOf text_regions regions' rest

/-- Specification-side reconciliation step, phrased as the amended
claim reads: if some already-placed region has geometry equal to the
table's, the table replaces the first such region in place; otherwise
the table is inserted immediately after its fallback-order predecessor
or, when it is first in the fallback order, immediately after its
fallback-order successor. -/
def reconcileSpecStep (geomOf : TopRef → Option TGeometry) (text_regions : List TopRef)
    (regions : List TopRef) (t : TopRef) : Except ConvError (List TopRef) :=
  match regions.findIdx? (fun r => geomMatchB geomOf r t) with
  | some i => .ok (regions.set i t)
  | none =>
    match idxOfEq t text_regions with
    | none => .error .valueError
    | some tp =>
      match text_regions.get? (if 0 < tp then tp - 1 else tp + 1) with
      | none => .error .indexError
      | some anchor =>
        match idxOfEq anchor regions with
        | none => .error .valueError
        | some q => .ok (List.insertIdx (q + 1) t regions)

/-- Specification-side reconciliation loop. -/
def reconcileTablesSpec (geomOf : TopRef → Option TGeometry) (text_regions : List TopRef) :
    List TopRef → List TopRef → Except ConvError (List TopRef)
  | regions, [] => .ok regions
  | regions, t :: rest =>
    match reconcileSpecStep geomOf text_regions regions t with
    | .error e => .error e
    | .ok regions' => reconcileTablesSpec geomOf text_regions regions' rest

/-- The `layouts` dict keys still present, in insertion order. -/
def layoutDictIds (env : Env) : List String :=
  (alKeys env.layouts).filter (fun id => !(env.layoutsDeleted.contains id))

/-- The `tables` dict keys still present, in insertion order. -/
def tableDictIds (env : Env) : List String :=
  (alKeys env.tables).filter (fun id => !(env.tablesDeleted.contains id))

/-- `aws_block_order`: the sort key of a layout entity. -/
def blockOrderKey (env : Env) (id : String) : ℕ := (alGet? env.blockOrder id).getD 0

/-- `sorted(layouts.values(), key=aws_block_order)` (Python's stable
ascending sort, modelled by insertion sort). -/
def sortedLayoutIds (env : Env) : List String :=
  List.insertionSort (fun a b => blockOrderKey env a ≤ blockOrderKey env b) (layoutDictIds env)

/-- The reading-order resolution of `convert_file_without_image`:
always compute the word-order fallback; when the `layouts` dict is
truthy-nonempty (`any(layouts)` — some key is a non-empty string), sort
the layout entities by block order and reconcile the tables into that
list, otherwise use the fallback. -/
def readingOrderStage (env : Env) : Except ConvError (List TopRef) :=
  let text_regions := derive_reading_order (alGet? env.lines) (alValues env.words)
  if (layoutDictIds env).any (fun s => !(s == "")) then
    reconcileTables (geomOfEnv env) text_regions
      ((sortedLayoutIds env).map TopRef.layout)
      ((tableDictIds env).map TopRef.table)
  else .ok text_regions

/-- One entry of the global reading-order group. -/
inductive ROEntry where
  | unorderedGroup (index : ℕ) (ref : TopRef)
  | orderedGroup (index : ℕ) (ref : TopRef)
  | regionRef (index : ℕ) (ref : TopRef)
deriving DecidableEq

/-- The global reading-order group: tables become unordered sub-groups,
layouts with figure lines or child regions become ordered sub-groups,
everything else a direct region reference, indexed densely in resolved
order. -/
def buildGlobalRO (env : Env) (objs : List TopRef) : List ROEntry :=
  objs.enum.map (fun p =>
    let obj := p.2
    if tableDictHas env (topRefId obj) then .unorderedGroup p.1 obj
    else
      match (if env.layoutsDeleted.contains (topRefId obj) then none else alGet? env.layouts (topRefId obj)) with
      | some lay =>
        if (lay.textractLayoutType == "LAYOUT_FIGURE" && !lay.childLines.isEmpty)
            || !lay.childRegions.isEmpty
        then .orderedGroup p.1 obj else .regionRef p.1 obj
      | none => .regionRef p.1 obj)

/-- The result of a conversion: the resolved top-level sequence and the
global reading-order tree.  (XML node construction and serialization
are delegated to the external output-model library and are out of
scope, per the specification's own scope section.) -/
structure ConvResult where
  topLevel : List TopRef
  readingOrder : List ROEntry
deriving DecidableEq

/-- `convert_file_without_image`, from the parsed `Blocks` array to the
resolved document structure: registry, words, lines, tables, values,
keys, layouts, recursive layout resolution, dangling-word and
dangling-line passes, reading order, global reading-order group. -/
def convert_file_without_image (blocks : List AwsBlock) : Except ConvError ConvResult :=
  match buildRegistry blocks with
  | .error e => .error e
  | .ok reg =>
    match buildWords reg.word_blocks (emptyEnv reg.block_order) with
    | .error e => .error e
    | .ok env1 =>
      match buildLines reg.line_blocks env1 with
      | .error e => .error e
      | .ok env2 =>
        match buildTables reg reg.table_blocks env2 with
        | .error e => .error e
        | .ok env3 =>
          match buildValues reg reg.key_value_set_blocks env3 with
          | .error e => .error e
          | .ok env4 =>
            match buildKeys reg reg.key_value_set_blocks env4 with
            | .error e => .error e
            | .ok env5 =>
              let combined := combinedLookup (alKeys reg.layout_blocks) (alKeys env5.tables)
                (alKeys env5.keys) (alKeys env5.values)
              match buildLayouts combined reg.layout_blocks env5 with
              | .error e => .error e
              | .ok env6 =>
                match recursiveLayoutPass (alKeys env6.layouts) env6 with
                | .error e => .error e
                | .ok env7 =>
                  match dummyWordPass (alValues env7.words) with
                  | .error e => .error e
                  | .ok _ =>
                    match dummyLinePass reg.line_blocks (alKeys env7.lines) env7 with
                    | .error e => .error e
                    | .ok env8 =>
                      match readingOrderStage env8 with
                      | .error e => .error e
                      | .ok objs =>
                        .ok { topLevel := objs, readingOrder := buildGlobalRO env8 objs }

/-! ## Concrete inputs used to exercise the model -/

/-- A block template with every optional field absent. -/
def baseBlock : AwsBlock :=
  { id := "", blockType := "", geometry? := none, confidence? := none, text? := none,
    textType? := none, entityTypes := [], relationships := [], rowIndex? := none,
    columnIndex? := none, rowSpan? := none, columnSpan? := none, selectionStatus? := none }

/-- The bounding box of specification scenario A:
`{Left: 0.1, Top: 0.1, Width: 0.2, Height: 0.05}', with each decimal
parsed to its binary64 value. -/
def bboxScenarioA : TextractBoundingBox :=
  { left := pyDec 1 1, top := pyDec 1 1, width := pyDec 2 1, height := pyDec 5 2 }

/-- The raw dictionary for scenario A's bounding box. -/
def bboxDictScenarioA : AwsBBoxDict :=
  { left? := some (pyDec 1 1), top? := some (pyDec 1 1),
    width? := some (pyDec 2 1), height? := some (pyDec 5 2) }

/-- A bounding box dictionary with `Left = 0.1` and `Width = 0.9`: the
exact sum of the two binary64 values exceeds 1, but their binary64 sum
rounds to exactly 1. -/
def bboxDictWide : AwsBBoxDict :=
  { left? := some (pyDec 1 1), top? := some (pyDec 1 1),
    width? := some (pyDec 9 1), height? := some (pyDec 5 2) }

/-- A simple valid geometry (bounding box at the origin, half page). -/
def geomHalf : AwsGeometryDict :=
  { polygon? := none,
    boundingBox? := some { left? := some (intFrac 0), top? := some (intFrac 0),
                           width? := some ⟨1, 2⟩, height? := some ⟨1, 2⟩ } }

/-- A `PAGE` block. -/
def pageBlock1 : AwsBlock :=
  { baseBlock with id := "p1", blockType := "PAGE", geometry? := some geomHalf,
                   confidence? := some (intFrac 99) }

/-- A second `PAGE` block. -/
def pageBlock2 : AwsBlock :=
  { baseBlock with id := "p2", blockType := "PAGE", geometry? := some geomHalf,
                   confidence? := some (intFrac 99) }

/-- A `WORD` block that no `LINE`, `CELL` or `LAYOUT` block lists as a
child. -/
def danglingWordBlock : AwsBlock :=
  { baseBlock with id := "w1", blockType := "WORD", geometry? := some geomHalf,
                   confidence? := some (intFrac 99), text? := some "Hi" }

/-- The input of the C2 scenario: one page and one dangling word. -/
def c2Blocks : List AwsBlock := [pageBlock1, danglingWordBlock]

/-- A `LINE` block owning the word `w1`. -/
def lineBlockHello : AwsBlock :=
  { baseBlock with id := "l1", blockType := "LINE", geometry? := some geomHalf,
                   confidence? := some (intFrac 99), text? := some "Hello",
                   relationships := [⟨"CHILD", ["w1"]⟩] }

/-- The `WORD` block owned by `l1`. -/
def wordBlockHello : AwsBlock :=
  { baseBlock with id := "w1", blockType := "WORD", geometry? := some geomHalf,
                   confidence? := some (intFrac 99), text? := some "Hello",
                   textType? := some "PRINTED" }

/-- A conversion input with no `PAGE` block at all. -/
def noPageBlocks : List AwsBlock := [lineBlockHello, wordBlockHello]

/-- A conversion input with two `PAGE` blocks. -/
def twoPageBlocks : List AwsBlock := [pageBlock1, pageBlock2]

/-- A block with two `CHILD`-typed relationship entries. -/
def twoChildRelBlock : AwsBlock :=
  { baseBlock with id := "b", blockType := "LINE",
                   relationships := [⟨"CHILD", ["a"]⟩, ⟨"CHILD", ["b2"]⟩] }

/-- Three pairwise distinct geometries for the reconciliation
counterexample. -/
def geomA : TGeometry := .bbox ⟨intFrac 0, intFrac 0, ⟨1, 4⟩, ⟨1, 4⟩⟩

/-- Second distinct geometry. -/
def geomB : TGeometry := .bbox ⟨⟨1, 2⟩, intFrac 0, ⟨1, 4⟩, ⟨1, 4⟩⟩

/-- Third distinct geometry. -/
def geomT : TGeometry := .bbox ⟨intFrac 0, ⟨1, 2⟩, ⟨1, 4⟩, ⟨1, 4⟩⟩

/-- A geometry assignment for the reconciliation counterexample: two
layouts `A`, `B` and one table `T`, all with distinct geometries. -/
def geomMapC4 : TopRef → Option TGeometry
  | .layout "A" => some geomA
  | .layout "B" => some geomB
  | .table "T" => some geomT
  | _ => none

/-- The `TABLE` block of specification scenario B, with two `CELL`
children. -/
def tableBlockB : AwsBlock :=
  { baseBlock with id := "t1", blockType := "TABLE", geometry? := some geomHalf,
                   confidence? := some (intFrac 99),
                   relationships := [⟨"CHILD", ["c1", "c2"]⟩] }

/-- Scenario B's first cell: `RowIndex 1, ColumnIndex 1` (1-based). -/
def cellBlock1 : AwsBlock :=
  { baseBlock with id := "c1", blockType := "CELL", geometry? := some geomHalf,
                   confidence? := some (intFrac 99), rowIndex? := some 1,
                   columnIndex? := some 1, rowSpan? := some 1, columnSpan? := some 1 }

/-- Scenario B's second cell: `RowIndex 1, ColumnIndex 2` (1-based). -/
def cellBlock2 : AwsBlock :=
  { baseBlock with id := "c2", blockType := "CELL", geometry? := some geomHalf,
                   confidence? := some (intFrac 99), rowIndex? := some 1,
                   columnIndex? := some 2, rowSpan? := some 1, columnSpan? := some 1 }

/-- The cell registry of scenario B. -/
def cellBlocksB : List (String × AwsBlock) := [("c1", cellBlock1), ("c2", cellBlock2)]

/-- The scenario-B table construction. -/
def scenarioBTable : Except ConvError (TTable × Env) :=
  mkTextractTable tableBlockB cellBlocksB [] [] [] [] (emptyEnv [])

/-- A `TABLE` block whose only child reference resolves to no `CELL`
block. -/
def tableBlockNoCells : AwsBlock :=
  { baseBlock with id := "t2", blockType := "TABLE", geometry? := some geomHalf,
                   confidence? := some (intFrac 99),
                   relationships := [⟨"CHILD", ["nothere"]⟩] }

/-- A minimal layout entity, for exercising the reading-order stage. -/
def layC4 : TLayout :=
  { id := "A", textractLayoutType := "LAYOUT_TEXT", pageLayoutType := "paragraph",
    geometry := geomA, confidence := intFrac 1, childWords := [], childLines := [],
    childRegions := [], parentLayout? := none }

/-- A heap holding a single layout entity. -/
def envC4 : Env := { emptyEnv [("A", 0)] with layouts := [("A", layC4)] }

/-! ## Helper lemmas -/

set_option maxRecDepth 40000

theorem isOkE_false_iff {ε α : Type} (x : Except ε α) : isOkE x = false ↔ ∃ e, x = .error e := by
  cases x <;> simp [isOkE]

theorem isOkE_true_iff {ε α : Type} (x : Except ε α) : isOkE x = true ↔ ∃ a, x = .ok a := by
  cases x <;> simp [isOkE]

theorem get_ids_aux (p : AwsRel → Bool) :
    ∀ l : List AwsRel,
      (if ¬ l.any p then [] else (((l.filter p).map AwsRel.ids).headD [])) =
        ((l.find? p).map AwsRel.ids).getD [] := by
  intro l
  induction l with
  | nil => simp
  | cons r rs ih =>
    by_cases hp : p r
    · simp [List.any_cons, hp, List.find?_cons, List.filter_cons]
    · rw [show (r :: rs).any p = rs.any p by simp [hp],
        show (r :: rs).filter p = rs.filter p from by simp [List.filter_cons, hp],
        show (r :: rs).find? p = rs.find? p from by simp [List.find?_cons, hp]]
      exact ih

theorem mkPolygonPoints_ok_iff (ps : List AwsPointDict) :
    isOkE (mkPolygonPoints ps) = true ↔
      ∀ p ∈ ps, isOkE (mkTextractPoint (p.x?.getD (intFrac (-1))) (p.y?.getD (intFrac (-1)))) = true := by
  induction ps with
  | nil => simp [mkPolygonPoints, isOkE]
  | cons p ps ih =>
    simp only [List.mem_cons, mkPolygonPoints]
    constructor
    · intro h
      cases hp : mkTextractPoint (p.x?.getD (intFrac (-1))) (p.y?.getD (intFrac (-1))) with
      | error e => rw [hp] at h; simp [isOkE] at h
      | ok tp =>
        rw [hp] at h
        cases hps : mkPolygonPoints ps with
        | error e => rw [hps] at h; simp [isOkE] at h
        | ok tps =>
          intro q hq
          rcases hq with rfl | hq
          · simp [hp, isOkE]
          · exact (ih.mp (by rw [hps]; rfl)) q hq
    · intro h
      cases hp : mkTextractPoint (p.x?.getD (intFrac (-1))) (p.y?.getD (intFrac (-1))) with
      | error e =>
        have := h p (Or.inl rfl)
        rw [hp] at this; simp [isOkE] at this
      | ok tp =>
        have hrest : isOkE (mkPolygonPoints ps) = true := ih.mpr (fun q hq => h q (Or.inr hq))
        cases hps : mkPolygonPoints ps with
        | error e => rw [hps] at hrest; simp [isOkE] at hrest
        | ok tps => simp [isOkE]

theorem mkPolygonPoints_length (ps : List AwsPointDict) :
    ∀ tps, mkPolygonPoints ps = .ok tps → tps.length = ps.length := by
  induction ps with
  | nil => intro tps h; simp [mkPolygonPoints] at h; simp [← h]
  | cons p ps ih =>
    intro tps h
    simp only [mkPolygonPoints] at h
    cases hp : mkTextractPoint (p.x?.getD (intFrac (-1))) (p.y?.getD (intFrac (-1))) with
    | error e => rw [hp] at h; exact absurd h (by simp)
    | ok tp =>
      rw [hp] at h
      cases hps : mkPolygonPoints ps with
      | error e => rw [hps] at h; exact absurd h (by simp)
      | ok tps' =>
        rw [hps] at h
        cases h
        simp [ih tps' hps]

theorem foldl_dedup_toList (acc : List TopRef) (o : Option TopRef) :
    o.toList.foldl (fun acc p => if p ∈ acc then acc else acc ++ [p]) acc = appendNew acc o := by
  cases o <;> simp [appendNew, Option.toList]

theorem derive_eq_foldl_stream (lineOf : String → Option TLine) :
    ∀ (ws : List TWord) (acc : List TopRef),
      ws.foldl (fun acc w => appendNew (appendNew acc (lineOwner lineOf w)) (wordOwner w)) acc =
        (ownerStream lineOf ws).foldl (fun acc p => if p ∈ acc then acc else acc ++ [p]) acc := by
  intro ws
  induction ws with
  | nil => intro acc; simp [ownerStream]
  | cons w ws ih =>
    intro acc
    simp only [List.foldl_cons, ownerStream, List.flatMap_cons, List.foldl_append,
      foldl_dedup_toList]
    exact ih _

theorem mem_foldl_dedup (x : TopRef) :
    ∀ (l acc : List TopRef),
      (x ∈ l.foldl (fun acc p => if p ∈ acc then acc else acc ++ [p]) acc ↔ x ∈ acc ∨ x ∈ l) := by
  intro l
  induction l with
  | nil => intro acc; simp
  | cons p ps ih =>
    intro acc
    simp only [List.foldl_cons, ih, List.mem_cons]
    by_cases hp : p ∈ acc
    · simp only [if_pos hp]
      constructor
      · rintro (h | h)
        · exact Or.inl h
        · exact Or.inr (Or.inr h)
      · rintro (h | rfl | h)
        · exact Or.inl h
        · exact Or.inl hp
        · exact Or.inr h
    · simp only [if_neg hp, List.mem_append, List.mem_singleton]
      constructor
      · rintro ((h | rfl) | h)
        · exact Or.inl h
        · exact Or.inr (Or.inl rfl)
        · exact Or.inr (Or.inr h)
      · rintro (h | rfl | h)
        · exact Or.inl (Or.inl h)
        · exact Or.inl (Or.inr rfl)
        · exact Or.inr h

theorem nodup_foldl_dedup :
    ∀ (l acc : List TopRef), acc.Nodup →
      (l.foldl (fun acc p => if p ∈ acc then acc else acc ++ [p]) acc).Nodup := by
  intro l
  induction l with
  | nil => intro acc h; simpa using h
  | cons p ps ih =>
    intro acc h
    simp only [List.foldl_cons]
    by_cases hp : p ∈ acc
    · rw [if_pos hp]; exact ih acc h
    · rw [if_neg hp]
      exact ih (acc ++ [p]) (by simp [List.nodup_append, h, hp])

theorem idxOfEq_of_find? (p : TopRef → Bool) :
    ∀ (l : List TopRef) (hit : TopRef), l.find? p = some hit →
      idxOfEq hit l = l.findIdx? p := by
  intro l
  induction l with
  | nil => intro hit h; simp [List.find?] at h
  | cons y ys ih =>
    intro hit h
    by_cases hy : p y
    · rw [List.find?_cons_of_pos _ hy] at h
      cases h
      simp [idxOfEq, List.findIdx?_cons, hy]
    · rw [List.find?_cons_of_neg _ hy] at h
      have hne : y ≠ hit := by
        rintro rfl
        exact hy (List.find?_some h)
      simp only [idxOfEq, if_neg hne, List.findIdx?_cons, hy]
      rw [ih hit h]
      simp [List.findIdx?_succ]

theorem find?_none_findIdx?_none (p : TopRef → Bool) :
    ∀ l : List TopRef, l.find? p = none → l.findIdx? p = none := by
  intro l
  induction l with
  | nil => intro _; simp
  | cons y ys ih =>
    intro h
    by_cases hy : p y
    · rw [List.find?_cons_of_pos _ hy] at h; cases h
    · rw [List.find?_cons_of_neg _ hy] at h
      simp [List.findIdx?_cons, hy, List.findIdx?_succ, ih h]

theorem idxOfEq_lt_length (x : TopRef) :
    ∀ (l : List TopRef) (q : ℕ), idxOfEq x l = some q → q < l.length := by
  intro l
  induction l with
  | nil => intro q h; simp [idxOfEq] at h
  | cons y ys ih =>
    intro q h
    simp only [idxOfEq] at h
    by_cases hy : y = x
    · rw [if_pos hy] at h
      simp only [Option.some.injEq] at h
      subst h
      simp [List.length_cons]
    · rw [if_neg hy] at h
      cases hq : idxOfEq x ys with
      | none => rw [hq] at h; simp at h
      | some q' =>
        rw [hq] at h
        simp only [Option.map_some', Option.some.injEq] at h
        subst h
        have := ih q' hq
        simp only [List.length_cons]
        omega

theorem insertIdx_eq_take_drop (t : TopRef) :
    ∀ (l : List TopRef) (n : ℕ), n ≤ l.length →
      List.insertIdx n t l = l.take n ++ t :: l.drop n := by
  intro l
  induction l with
  | nil =>
    intro n h
    have hn : n = 0 := by simpa using h
    subst hn
    simp [List.insertIdx]
  | cons y ys ih =>
    intro n h
    cases n with
    | zero => simp [List.insertIdx]
    | succ m =>
      simp only [List.insertIdx_succ_cons, List.take_succ_cons, List.drop_succ_cons,
        List.cons_append]
      rw [ih m (by simpa using h)]

theorem idxOfEq_of_mem (x : TopRef) :
    ∀ l : List TopRef, x ∈ l → ∃ q, idxOfEq x l = some q := by
  intro l
  induction l with
  | nil => intro h; cases h
  | cons y ys ih =>
    intro h
    by_cases hy : y = x
    · exact ⟨0, by simp [idxOfEq, hy]⟩
    · have : x ∈ ys := by
        rcases List.mem_cons.mp h with rfl | hm
        · exact absurd rfl hy
        · exact hm
      obtain ⟨q, hq⟩ := ih this
      exact ⟨q + 1, by simp [idxOfEq, hy, hq]⟩

theorem reconcileStep_eq_spec (geomOf : TopRef → Option TGeometry)
    (text_regions regions : List TopRef) (t : TopRef) :
    reconcileStep geomOf text_regions regions t =
      reconcileSpecStep geomOf text_regions regions t := by
  simp only [reconcileStep, reconcileSpecStep]
  cases hf : regions.find? (fun r => geomMatchB geomOf r t) with
  | some hit =>
    obtain ⟨q, hq⟩ := idxOfEq_of_mem hit regions (List.mem_of_find?_eq_some hf)
    rw [← idxOfEq_of_find? _ _ _ hf]
    simp only [hq]
  | none =>
    rw [find?_none_findIdx?_none _ _ hf]
    cases ht : idxOfEq t text_regions with
    | none => simp only [ht]
    | some tp =>
      simp only [ht]
      by_cases htp : 0 < tp
      · simp only [if_pos htp]
        cases hgp : text_regions.get? (tp - 1) with
        | none => simp only [hgp]
        | some prev =>
          simp only [hgp]
          cases hq : idxOfEq prev regions with
          | none => simp only [hq]
          | some q =>
            simp only [hq]
            have hlt : q < regions.length := idxOfEq_lt_length prev regions q hq
            rw [insertIdx_eq_take_drop t regions (q + 1) (by omega)]
      · simp only [if_neg htp]
        cases hgp : text_regions.get? (tp + 1) with
        | none => simp only [hgp]
        | some succ =>
          simp only [hgp]
          cases hq : idxOfEq succ regions with
          | none => simp only [hq]
          | some q =>
            simp only [hq]
            have hlt : q < regions.length := idxOfEq_lt_length succ regions q hq
            rw [insertIdx_eq_take_drop t regions (q + 1) (by omega)]

theorem reconcileTables_eq_spec (geomOf : TopRef → Option TGeometry)
    (text_regions : List TopRef) :
    ∀ (ts regions : List TopRef),
      reconcileTables geomOf text_regions regions ts =
        reconcileTablesSpec geomOf text_regions regions ts := by
  intro ts
  induction ts with
  | nil => intro regions; rfl
  | cons t rest ih =>
    intro regions
    simp only [reconcileTables, reconcileTablesSpec, ← reconcileStep_eq_spec]
    cases reconcileStep geomOf text_regions regions t with
    | error e => rfl
    | ok regions' => exact ih regions'

theorem registryUpd_pageSeen (reg : Registry) (i : ℕ) (b : AwsBlock) :
    (registryUpd reg i b).pageSeen = (if b.blockType = "PAGE" then true else reg.pageSeen) := rfl

theorem pageCount_cons (b : AwsBlock) (bs : List AwsBlock) :
    pageCount (b :: bs) = (if b.blockType = "PAGE" then 1 else 0) + pageCount bs := by
  simp only [pageCount, List.filter_cons]
  by_cases hb : b.blockType = "PAGE" <;> simp [hb] <;> omega

theorem registryLoop_err_iff :
    ∀ (bs : List AwsBlock) (i : ℕ) (reg : Registry),
      (isOkE (registryLoop bs i reg) = false ↔ (if reg.pageSeen then 1 else 2) ≤ pageCount bs) := by
  intro bs
  induction bs with
  | nil =>
    intro i reg
    simp only [registryLoop, isOkE, pageCount, List.filter_nil, List.length_nil]
    constructor
    · intro h; cases h
    · intro h
      by_cases hs : reg.pageSeen <;> simp [hs] at h
  | cons b bs ih =>
    intro i reg
    simp only [registryLoop, registryStep, pageCount_cons]
    by_cases hb : b.blockType = "PAGE"
    · by_cases hs : reg.pageSeen = true
      · rw [if_pos ⟨hb, hs⟩]
        simp only [isOkE, hs, hb, if_true]
        constructor
        · intro _; omega
        · intro _; trivial
      · rw [if_neg (by intro hc; exact hs hc.2)]
        rw [ih, registryUpd_pageSeen, if_pos hb]
        have hs' : reg.pageSeen = false := by
          cases h : reg.pageSeen
          · rfl
          · exact absurd h hs
        rw [hs', if_pos rfl, if_neg (by simp), if_pos hb]
        omega
    · rw [if_neg (by intro hc; exact hb hc.1)]
      rw [ih, registryUpd_pageSeen, if_neg hb, if_neg hb]
      omega

theorem buildCommonCells_all_missing (cb : List (String × AwsBlock)) (tid : String)
    (selB : List (String × AwsBlock)) :
    ∀ (ids : List String) (idx : ℕ) (env : Env),
      (∀ id ∈ ids, alGet? cb id = none) →
      buildCommonCells cb tid selB ids idx env = .ok ([], env) := by
  intro ids
  induction ids with
  | nil => intro idx env _; rfl
  | cons id rest ih =>
    intro idx env h
    have h1 : alGet? cb id = none := h id (List.mem_cons_self id rest)
    simp only [buildCommonCells, h1]
    exact ih idx env (fun i hi => h i (List.mem_cons_of_mem id hi))

theorem buildMergedCells_nil_commons (mb : List (String × AwsBlock)) :
    ∀ (ids : List String) (ms : List TMergedCell) (cs' : List TCell),
      buildMergedCells mb ids [] = .ok (ms, cs') → cs' = [] := by
  intro ids
  induction ids with
  | nil =>
    intro ms cs' h
    simp only [buildMergedCells, Except.ok.injEq, Prod.mk.injEq] at h
    exact h.2.symm
  | cons id rest ih =>
    intro ms cs' h
    simp only [buildMergedCells] at h
    cases hm : alGet? mb id with
    | none =>
      simp only [hm] at h
      exact ih ms cs' h
    | some b =>
      simp only [hm] at h
      cases hmc : mkTextractMergedCell b [] with
      | error e => rw [hmc] at h; cases h
      | ok p =>
        rw [hmc] at h
        obtain ⟨m, commons'⟩ := p
        have hc : commons' = [] := by
          simp only [mkTextractMergedCell] at hmc
          cases hbb : blockBase b with
          | error e => simp only [hbb] at hmc; cases hmc
          | ok gc =>
            simp only [hbb] at hmc
            cases hri : reqField b.rowIndex? with
            | error e => simp only [hri] at hmc; cases hmc
            | ok ri =>
              cases hci : reqField b.columnIndex? with
              | error e => simp only [hri, hci] at hmc; cases hmc
              | ok ci =>
                cases hrs : reqField b.rowSpan? with
                | error e => simp only [hri, hci, hrs] at hmc; cases hmc
                | ok rs =>
                  cases hcs : reqField b.columnSpan? with
                  | error e => simp only [hri, hci, hrs, hcs] at hmc; cases hmc
                  | ok cs =>
                    simp only [hri, hci, hrs, hcs, List.map_nil, Except.ok.injEq,
                      Prod.mk.injEq] at hmc
                    exact hmc.2.symm
        subst hc
        cases hrest : buildMergedCells mb rest [] with
        | error e => simp only [hrest] at h; cases h
        | ok p2 =>
          obtain ⟨ms2, cs2⟩ := p2
          simp only [hrest, Except.ok.injEq, Prod.mk.injEq] at h
          exact (ih ms2 cs2 hrest) ▸ h.2.symm

theorem mkTable_no_resolvable_cells (b : AwsBlock)
    (cb mb tb fb sb : List (String × AwsBlock)) (env : Env)
    (h : ∀ id ∈ get_ids_of_child_blocks b, alGet? cb id = none) :
    isOkE (mkTextractTable b cb mb tb fb sb env) = false := by
  simp only [mkTextractTable]
  cases hbb : blockBase b with
  | error e => rfl
  | ok gc =>
    rw [buildCommonCells_all_missing cb b.id sb (get_ids_of_child_blocks b) 0 env h]
    cases hm : buildMergedCells mb (get_ids_of_child_blocks b) [] with
    | error e => simp [hm, isOkE]
    | ok p =>
      obtain ⟨ms, cs'⟩ := p
      have hc : cs' = [] := buildMergedCells_nil_commons mb _ ms cs' hm
      subst hc
      simp [hm, isOkE, listMax]

theorem buildCommonCells_ok_nil (cb : List (String × AwsBlock)) (tid : String)
    (selB : List (String × AwsBlock)) :
    ∀ (ids : List String) (idx : ℕ) (env : Env) (cs : List TCell) (env' : Env),
      buildCommonCells cb tid selB ids idx env = .ok (cs, env') →
      (∀ id ∈ ids, alGet? cb id = none) → cs = [] := by
  intro ids idx env cs env' hok hnone
  rw [buildCommonCells_all_missing cb tid selB ids idx env hnone] at hok
  simp only [Except.ok.injEq, Prod.mk.injEq] at hok
  exact hok.1.symm

theorem mkTable_rows_columns (b : AwsBlock)
    (cb mb tb fb sb : List (String × AwsBlock)) (env : Env) (t : TTable) (env' : Env)
    (h : mkTextractTable b cb mb tb fb sb env = .ok (t, env')) :
    ∃ mr mc, listMax (t.commonCells.map TCell.rowIndex) = some mr ∧
      listMax (t.commonCells.map TCell.columnIndex) = some mc ∧
      t.rows = mr + 1 ∧ t.columns = mc + 1 := by
  simp only [mkTextractTable] at h
  cases hbb : blockBase b with
  | error e => simp only [hbb] at h; cases h
  | ok gc =>
    simp only [hbb] at h
    cases hcc : buildCommonCells cb b.id sb (get_ids_of_child_blocks b) 0 env with
    | error e => simp only [hcc] at h; cases h
    | ok p1 =>
      obtain ⟨commons, env1⟩ := p1
      simp only [hcc] at h
      cases hm : buildMergedCells mb (get_ids_of_child_blocks b) commons with
      | error e => simp only [hm] at h; cases h
      | ok p2 =>
        obtain ⟨merged, commons'⟩ := p2
        simp only [hm] at h
        cases hmr : listMax (commons'.map TCell.rowIndex) with
        | none => simp only [hmr] at h; cases h
        | some mr =>
          cases hmc : listMax (commons'.map TCell.columnIndex) with
          | none => simp only [hmr, hmc] at h; cases h
          | some mc =>
            simp only [hmr, hmc, Except.ok.injEq, Prod.mk.injEq] at h
            obtain ⟨ht, _⟩ := h
            subst ht
            exact ⟨mr, mc, hmr, hmc, rfl, rfl⟩

theorem mkTable_ok_has_resolvable_cell (b : AwsBlock)
    (cb mb tb fb sb : List (String × AwsBlock)) (env : Env) (t : TTable) (env' : Env)
    (h : mkTextractTable b cb mb tb fb sb env = .ok (t, env')) :
    ∃ id ∈ get_ids_of_child_blocks b, (alGet? cb id).isSome = true := by
  by_contra hno
  push_neg at hno
  have hnone : ∀ id ∈ get_ids_of_child_blocks b, alGet? cb id = none := by
    intro id hid
    have := hno id hid
    cases halg : alGet? cb id with
    | none => rfl
    | some v => rw [halg] at this; simp at this
  have := mkTable_no_resolvable_cells b cb mb tb fb sb env hnone
  rw [h] at this
  simp [isOkE] at this

theorem mkCommonCell_indices (b : AwsBlock) (tid : String) (idx : ℕ)
    (selB : List (String × AwsBlock)) (env : Env) (c : TCell) (env' : Env)
    (h : mkTextractCommonCell b tid idx selB env = .ok (c, env')) :
    ∃ ri ci, b.rowIndex? = some ri ∧ b.columnIndex? = some ci ∧
      c.rowIndex = ri - 1 ∧ c.columnIndex = ci - 1 ∧ c.id = b.id := by
  simp only [mkTextractCommonCell] at h
  cases hbb : blockBase b with
  | error e => simp only [hbb] at h; cases h
  | ok gc =>
    simp only [hbb] at h
    cases hri : b.rowIndex? with
    | none => simp only [reqField, hri] at h; cases h
    | some ri =>
      cases hci : b.columnIndex? with
      | none => simp only [reqField, hri, hci] at h; cases h
      | some ci =>
        cases hrs : b.rowSpan? with
        | none => simp only [reqField, hri, hci, hrs] at h; cases h
        | some rs =>
          cases hcs : b.columnSpan? with
          | none => simp only [reqField, hri, hci, hrs, hcs] at h; cases h
          | some cs =>
            simp only [reqField, hri, hci, hrs, hcs] at h
            by_cases hn : none ∈ collectParentLines env.words
                ((get_ids_of_child_blocks b).filter (fun id => (alGet? env.words id).isSome)) []
            · rw [if_pos hn] at h; cases h
            · rw [if_neg hn] at h
              cases hs : buildSels selB (some (tid, idx)) none (get_ids_of_child_blocks b) with
              | error e => simp only [hs] at h; cases h
              | ok sels =>
                simp only [hs, Except.ok.injEq, Prod.mk.injEq] at h
                obtain ⟨hc, _⟩ := h
                subst hc
                exact ⟨ri, ci, rfl, rfl, rfl, rfl, rfl⟩

theorem toString_string (s : String) : toString s = s := rfl

theorem mkPoint_ok_iff (x y : Frac) :
    isOkE (mkTextractPoint x y) = true ↔
      (Frac.le (intFrac 0) x ∧ Frac.le x (intFrac 1) ∧
       Frac.le (intFrac 0) y ∧ Frac.le y (intFrac 1)) := by
  unfold mkTextractPoint
  split_ifs with hc <;> simp [isOkE, hc]

theorem mkPolygon_ok_iff (ps : List AwsPointDict) :
    isOkE (mkTextractPolygon ps) = true ↔
      (3 ≤ ps.length ∧
        ∀ p ∈ ps, isOkE (mkTextractPoint (p.x?.getD (intFrac (-1))) (p.y?.getD (intFrac (-1)))) = true) := by
  unfold mkTextractPolygon
  cases hp : mkPolygonPoints ps with
  | error e =>
    have hpts := mkPolygonPoints_ok_iff ps
    rw [hp] at hpts
    simp only [isOkE] at hpts ⊢
    constructor
    · intro h; cases h
    · intro h
      exact absurd (hpts.mpr h.2) (by simp)
  | ok tps =>
    have hpts : ∀ p ∈ ps, isOkE (mkTextractPoint (p.x?.getD (intFrac (-1))) (p.y?.getD (intFrac (-1)))) = true :=
      (mkPolygonPoints_ok_iff ps).mp (by rw [hp]; rfl)
    have hlen := mkPolygonPoints_length ps tps hp
    by_cases h3 : 3 ≤ tps.length
    · simp only [if_pos h3, isOkE, true_iff]
      exact ⟨hlen ▸ h3, hpts⟩
    · simp only [if_neg h3, isOkE]
      constructor
      · intro h; cases h
      · intro h
        exact absurd (hlen ▸ h.1) h3

/-! ## The claims -/

/-- C1, counterexample: on specification scenario A — the bounding box
`{Left: 0.1, Top: 0.1, Width: 0.2, Height: 0.05}` on a 1000 x 2000 px
page — the code does NOT produce the claimed point string
`"100,200 300,200 300,300 100,300"`.  In binary64 arithmetic
`(0.1 + 0.2) * 1000 = 300.00000000000006` and
`(0.1 + 0.05) * 2000 = 300.00000000000006`, both of which `math.ceil`
rounds up to 301, so the produced string is
`"100,200 301,200 301,301 100,301"`. -/
theorem points_from_bbox_scenarioA_value :
    mkTextractBoundingBox bboxDictScenarioA = .ok bboxScenarioA ∧
    points_from_aws_geometry (.bbox bboxScenarioA) 1000 2000 =
      "100,200 301,200 301,301 100,301" ∧
    "100,200 301,200 301,301 100,301" ≠ "100,200 300,200 300,300 100,300" :=
  ⟨by decide, by decide, by decide⟩

/-- C1, amended: for every bounding-box geometry and page dimensions,
`points_from_aws_geometry` renders exactly 4 points in the fixed order
top-left, top-right, bottom-right, bottom-left, each coordinate the
ceiling of the binary64 product of the fraction and the dimension (the
right and bottom fractions being binary64 sums); on the scenario-A
input this yields `"100,200 301,200 301,301 100,301"`, not the `300`
values the original claim computes with exact real arithmetic. -/
theorem points_from_aws_geometry_bbox_corners (g : TextractBoundingBox) (w h : ℤ) :
    points_from_aws_geometry (.bbox g) w h = renderPoints (bboxPixelCorners g w h) ∧
    (bboxPixelCorners g w h).length = 4 := by
  constructor
  · simp only [points_from_aws_geometry, points_from_bbox, bboxPixelCorners, renderPoints,
      renderPoint]
    simp [String.append_assoc, toString_string, String.append_empty, String.empty_append]
  · rfl

/-- C2, code bug: a `WORD` block that is not listed as a `CHILD` of any
`LINE`, `CELL` or `LAYOUT` block does not get wrapped in a synthesized
dummy line — the dummy-line branch executes `lines.append(dummy)` on
the dict `lines`, which raises `AttributeError` and aborts the whole
conversion with no output.  Evaluated here on a two-block input (one
page, one dangling word). -/
theorem convert_dangling_word_raises_attributeError :
    convert_file_without_image c2Blocks = .error .attributeError := by decide

/-- C3, confirmed: `derive_reading_order` returns exactly the first-seen
deduplication of the per-word owner stream, where each word contributes
first the owner resolved through its line and then the owner resolved
through its own direct parents, each resolution preferring, in order,
the table of the parent cell, the value, the key, and the layout
(conjunct 4 shows the code's `next(...)` search equals that preference
cascade); each distinct owner appears exactly once (conjunct 2), and
the result ranges over exactly the resolved owners (conjunct 3). -/
theorem derive_reading_order_characterization (lineOf : String → Option TLine)
    (ws : List TWord) :
    derive_reading_order lineOf ws = firstSeen (ownerStream lineOf ws) ∧
    (derive_reading_order lineOf ws).Nodup ∧
    (∀ x, x ∈ derive_reading_order lineOf ws ↔ x ∈ ownerStream lineOf ws) ∧
    (∀ pc pv pk pl, complexOwnerFrom pc pv pk pl = specComplexOwner pc pv pk pl) := by
  have h1 : derive_reading_order lineOf ws = firstSeen (ownerStream lineOf ws) :=
    derive_eq_foldl_stream lineOf ws []
  refine ⟨h1, ?_, ?_, ?_⟩
  · rw [h1]
    exact nodup_foldl_dedup (ownerStream lineOf ws) [] List.nodup_nil
  · intro x
    rw [h1]
    unfold firstSeen
    rw [mem_foldl_dedup]
    simp
  · intro pc pv pk pl
    cases pc <;> cases pv <;> cases pk <;> cases pl <;> rfl

/-- C4, counterexample: a table that is first in the word-order fallback
sequence and has no geometry match is spliced in immediately AFTER its
fallback successor, not before it as the claim states: with fallback
order `[T, A]` and layout order `[A, B]`, the result is `[A, T, B]`,
not `[T, A, B]`. -/
theorem reconcile_first_table_spliced_after_successor :
    reconcileTables geomMapC4 [.table "T", .layout "A"] [.layout "A", .layout "B"]
        [.table "T"] = .ok [.layout "A", .table "T", .layout "B"] ∧
    [TopRef.layout "A", TopRef.table "T", TopRef.layout "B"] ≠
      [TopRef.table "T", TopRef.layout "A", TopRef.layout "B"] :=
  ⟨by decide, by decide⟩

/-- C4, amended: when any layout entities exist, the reading order sorts
them by original block-sequence index (conjunct 3: the sort is sorted
and a permutation; conjunct 4: the stage is exactly this sort followed
by reconciliation) and reconciles every table into the result: if any
already-placed region — of any kind, not only `LAYOUT_TABLE` — has
geometry equal to the table's, the table replaces the first such region
in place; otherwise the table is spliced in immediately after its
predecessor in the word-order fallback sequence or, when the table is
first there, immediately after (not before) its successor (conjuncts 1
and 2: the loop equals this specification step by step). -/
theorem reconcile_tables_amended_characterization :
    (∀ geomOf text_regions regions t,
      reconcileStep geomOf text_regions regions t =
        reconcileSpecStep geomOf text_regions regions t) ∧
    (∀ geomOf text_regions ts regions,
      reconcileTables geomOf text_regions regions ts =
        reconcileTablesSpec geomOf text_regions regions ts) ∧
    (∀ env, List.Sorted (fun a b => blockOrderKey env a ≤ blockOrderKey env b)
        (sortedLayoutIds env) ∧ (sortedLayoutIds env).Perm (layoutDictIds env)) ∧
    (∀ env, (layoutDictIds env).any (fun s => !(s == "")) = true →
      readingOrderStage env =
        reconcileTables (geomOfEnv env)
          (derive_reading_order (alGet? env.lines) (alValues env.words))
          ((sortedLayoutIds env).map TopRef.layout)
          ((tableDictIds env).map TopRef.table)) := by
  refine ⟨reconcileStep_eq_spec, ?_, ?_, ?_⟩
  · intro geomOf text_regions ts regions
    exact reconcileTables_eq_spec geomOf text_regions ts regions
  · intro env
    constructor
    · haveI : IsTotal String (fun a b => blockOrderKey env a ≤ blockOrderKey env b) :=
        ⟨fun a b => Nat.le_total _ _⟩
      haveI : IsTrans String (fun a b => blockOrderKey env a ≤ blockOrderKey env b) :=
        ⟨fun _ _ _ => Nat.le_trans⟩
      exact List.sorted_insertionSort _ _
    · exact List.perm_insertionSort _ _
  · intro env hcond
    simp only [readingOrderStage]
    rw [if_pos hcond]

/-- C4, witness: the amended characterization applied at a concrete heap
holding one layout entity, whose condition is discharged by
computation. -/
theorem reconcile_tables_amended_characterization_witness :
    readingOrderStage envC4 =
      reconcileTables (geomOfEnv envC4)
        (derive_reading_order (alGet? envC4.lines) (alValues envC4.words))
        ((sortedLayoutIds envC4).map TopRef.layout)
        ((tableDictIds envC4).map TopRef.table) :=
  reconcile_tables_amended_characterization.2.2.2 envC4 (by decide)

/-- C5, counterexample: the absence of a `PAGE` block is NOT fatal: a
two-block input (one line, one word, no page) converts successfully and
produces an output document (here: one synthesized dummy region in the
reading order). -/
theorem convert_without_page_succeeds :
    pageCount noPageBlocks = 0 ∧
    isOkE (convert_file_without_image noPageBlocks) = true ∧
    (convert_file_without_image noPageBlocks).map ConvResult.topLevel =
      .ok [.layout "l1_parent"] :=
  ⟨by decide, by decide, by decide⟩

/-- C5, amended: the registry stage fails (with the `assert not
page_block` `AssertionError`) exactly when the input holds two or more
`PAGE` blocks, and in that case the whole conversion aborts with no
output; the absence of a `PAGE` block is not detected — `page_block` is
never used after the registry loop — and conversion proceeds. -/
theorem duplicate_page_fatal_absence_not_checked (blocks : List AwsBlock) :
    (isOkE (buildRegistry blocks) = false ↔ 2 ≤ pageCount blocks) ∧
    (2 ≤ pageCount blocks → isOkE (convert_file_without_image blocks) = false) := by
  have hreg : isOkE (buildRegistry blocks) = false ↔ 2 ≤ pageCount blocks := by
    have := registryLoop_err_iff blocks 0 emptyRegistry
    simpa [buildRegistry, emptyRegistry] using this
  refine ⟨hreg, ?_⟩
  intro h2
  obtain ⟨e, he⟩ := (isOkE_false_iff _).mp (hreg.mpr h2)
  simp [convert_file_without_image, he, isOkE]

/-- C5, witness: the amended claim applied to a concrete two-page input. -/
theorem duplicate_page_fatal_absence_not_checked_witness :
    isOkE (convert_file_without_image twoPageBlocks) = false :=
  (duplicate_page_fatal_absence_not_checked twoPageBlocks).2 (by decide)

/-- C6, counterexample: on a block with two `CHILD`-typed relationship
entries `["a"]` and `["b2"]`, `get_ids_of_child_blocks` returns only
`["a"]`, not the ids drawn from all `CHILD` entries. -/
theorem get_ids_ignores_second_child_rel :
    get_ids_of_child_blocks twoChildRelBlock = ["a"] ∧
    allChildIds twoChildRelBlock = ["a", "b2"] ∧
    get_ids_of_child_blocks twoChildRelBlock ≠ allChildIds twoChildRelBlock :=
  ⟨by decide, by decide, by decide⟩

/-- C6, amended: for every block, `get_ids_of_child_blocks` returns the
`Ids` list of the FIRST `CHILD`-typed relationship entry (and the empty
list when no such entry exists); any further `CHILD`-typed entries are
ignored. -/
theorem get_ids_of_child_blocks_eq_first_child_rel (b : AwsBlock) :
    get_ids_of_child_blocks b = firstChildIds b := by
  have := get_ids_aux (fun rel => rel.type_ == "CHILD") b.relationships
  simpa [get_ids_of_child_blocks, firstChildIds] using this

/-- C7, counterexample: a bounding box whose left and width are the
binary64 values of 0.1 and 0.9 — whose exact sum strictly exceeds 1 —
is constructed successfully, because the code checks the binary64 sum
`width + left`, which rounds to exactly 1. -/
theorem bbox_extent_overflow_accepted :
    isOkE (mkTextractBoundingBox bboxDictWide) = true ∧
    Frac.lt (intFrac 1)
      (fadd (bboxDictWide.left?.getD (intFrac (-1))) (bboxDictWide.width?.getD (intFrac (-1)))) :=
  ⟨by decide, by decide⟩

/-- C7, amended: bounding-box construction succeeds if and only if each
of left/top/width/height (each defaulting to -1 when its key is
missing) lies in `[0, 1]` and the binary64 sums `width + left` and
`height + top` are at most 1 (so an exact sum within one rounding ulp
above 1 may be accepted); polygon construction succeeds if and only if
there are at least 3 points and every vertex coordinate lies in
`[0, 1]`.  All these failures raise the geometry assertions
(`AssertionError`; the spec's `GeometryError` taxonomy does not exist
in the code). -/
theorem geometry_construction_success_iff (d : AwsBBoxDict) (ps : List AwsPointDict) :
    (isOkE (mkTextractBoundingBox d) = true ↔
      (Frac.le (intFrac 0) (d.left?.getD (intFrac (-1))) ∧
       Frac.le (d.left?.getD (intFrac (-1))) (intFrac 1) ∧
       Frac.le (intFrac 0) (d.top?.getD (intFrac (-1))) ∧
       Frac.le (d.top?.getD (intFrac (-1))) (intFrac 1) ∧
       Frac.le (intFrac 0) (d.width?.getD (intFrac (-1))) ∧
       Frac.le (d.width?.getD (intFrac (-1))) (intFrac 1) ∧
       Frac.le (intFrac 0) (d.height?.getD (intFrac (-1))) ∧
       Frac.le (d.height?.getD (intFrac (-1))) (intFrac 1) ∧
       Frac.le (dadd (d.width?.getD (intFrac (-1))) (d.left?.getD (intFrac (-1)))) (intFrac 1) ∧
       Frac.le (dadd (d.height?.getD (intFrac (-1))) (d.top?.getD (intFrac (-1)))) (intFrac 1))) ∧
    (isOkE (mkTextractPolygon ps) = true ↔
      (3 ≤ ps.length ∧
        ∀ p ∈ ps,
          Frac.le (intFrac 0) (p.x?.getD (intFrac (-1))) ∧
          Frac.le (p.x?.getD (intFrac (-1))) (intFrac 1) ∧
          Frac.le (intFrac 0) (p.y?.getD (intFrac (-1))) ∧
          Frac.le (p.y?.getD (intFrac (-1))) (intFrac 1))) := by
  constructor
  · simp only [mkTextractBoundingBox]
    split_ifs with hc <;> simp [isOkE, hc]
  · rw [mkPolygon_ok_iff]
    constructor
    · intro h
      exact ⟨h.1, fun p hp => (mkPoint_ok_iff _ _).mp (h.2 p hp)⟩
    · intro h
      exact ⟨h.1, fun p hp => (mkPoint_ok_iff _ _).mpr (h.2 p hp)⟩

/-- C8, confirmed: the derived `rows` and `columns` of a constructed
table are `max(index) + 1` over its cells' stored indices (conjunct 1);
each constructed cell stores `RowIndex - 1` and `ColumnIndex - 1`, the
1-based input fields converted to 0-based (conjunct 2); and on
specification scenario B — a table with two cells at 1-based (1,1) and
(1,2) — the table derives `rows = 1`, `columns = 2` with cells tagged
(0,0) and (0,1) (conjunct 3). -/
theorem table_rows_columns_derivation :
    (∀ b cb mb tb fb sb env t env',
      mkTextractTable b cb mb tb fb sb env = .ok (t, env') →
      ∃ mr mc, listMax (t.commonCells.map TCell.rowIndex) = some mr ∧
        listMax (t.commonCells.map TCell.columnIndex) = some mc ∧
        t.rows = mr + 1 ∧ t.columns = mc + 1) ∧
    (∀ b tid idx selB env c env',
      mkTextractCommonCell b tid idx selB env = .ok (c, env') →
      ∃ ri ci, b.rowIndex? = some ri ∧ b.columnIndex? = some ci ∧
        c.rowIndex = ri - 1 ∧ c.columnIndex = ci - 1 ∧ c.id = b.id) ∧
    ((scenarioBTable.map (fun p =>
        (p.1.rows, p.1.columns, p.1.commonCells.map (fun c => (c.rowIndex, c.columnIndex))))) =
      .ok (1, 2, [(0, 0), (0, 1)])) :=
  ⟨mkTable_rows_columns, mkCommonCell_indices, by decide⟩

/-- C8, witness: the cell-index conjunct applied at scenario B's first
cell block, the success hypothesis discharged by computation. -/
theorem table_rows_columns_derivation_witness :
    ∃ p, mkTextractCommonCell cellBlock1 "t1" 0 [] (emptyEnv []) = .ok p ∧
      ∃ ri ci, cellBlock1.rowIndex? = some ri ∧ cellBlock1.columnIndex? = some ci ∧
        p.1.rowIndex = ri - 1 ∧ p.1.columnIndex = ci - 1 ∧ p.1.id = cellBlock1.id := by
  cases h : mkTextractCommonCell cellBlock1 "t1" 0 [] (emptyEnv []) with
  | error e =>
    have hok : isOkE (mkTextractCommonCell cellBlock1 "t1" 0 [] (emptyEnv [])) = true := by decide
    rw [h] at hok
    simp [isOkE] at hok
  | ok p =>
    exact ⟨p, rfl, table_rows_columns_derivation.2.1 cellBlock1 "t1" 0 [] (emptyEnv [])
      p.1 p.2 (by rw [← h])⟩

/-- C9, confirmed: `build_aws_geometry` uses the polygon whenever the
`Polygon` key is present — the result does not depend on the
`BoundingBox` entry at all (conjunct 1) and equals the polygon
construction (conjunct 2) — and consults the bounding box only when no
`Polygon` key is present (conjunct 3). -/
theorem build_aws_geometry_prefers_polygon :
    (∀ (pts : List AwsPointDict) (bd bd' : Option AwsBBoxDict),
      build_aws_geometry (some ⟨some pts, bd⟩) = build_aws_geometry (some ⟨some pts, bd'⟩)) ∧
    (∀ (pts : List AwsPointDict) (bd : Option AwsBBoxDict),
      build_aws_geometry (some ⟨some pts, bd⟩) = (mkTextractPolygon pts).map TGeometry.poly) ∧
    (∀ bb : AwsBBoxDict,
      build_aws_geometry (some ⟨none, some bb⟩) = (mkTextractBoundingBox bb).map TGeometry.bbox) := by
  refine ⟨fun pts bd bd' => rfl, fun pts bd => ?_, fun bb => ?_⟩
  · cases h : mkTextractPolygon pts <;> simp [build_aws_geometry, h, Except.map]
  · cases h : mkTextractBoundingBox bb <;> simp [build_aws_geometry, h, Except.map]

/-- C10, confirmed: constructing a table whose `CHILD` references
resolve to no `CELL` block always fails (the `max` over the empty cell
collection raises; conjunct 1 — failure is unconditional, whatever
other errors might occur first), and a successfully constructed table
always had at least one resolvable `CELL` child (conjunct 2); dangling
individual references are skipped silently — only the all-dangling case
is fatal, and since the table loop propagates the exception, conversion
aborts. -/
theorem table_requires_resolvable_cell_child :
    (∀ b cb mb tb fb sb env,
      (∀ id ∈ get_ids_of_child_blocks b, alGet? cb id = none) →
      isOkE (mkTextractTable b cb mb tb fb sb env) = false) ∧
    (∀ b cb mb tb fb sb env t env',
      mkTextractTable b cb mb tb fb sb env = .ok (t, env') →
      ∃ id ∈ get_ids_of_child_blocks b, (alGet? cb id).isSome = true) :=
  ⟨mkTable_no_resolvable_cells, mkTable_ok_has_resolvable_cell⟩

/-- C10, witness: a concrete table block with one dangling `CHILD`
reference and an empty cell registry fails to construct. -/
theorem table_requires_resolvable_cell_child_witness :
    isOkE (mkTextractTable tableBlockNoCells [] [] [] [] [] (emptyEnv [])) = false :=
  table_requires_resolvable_cell_child.1 tableBlockNoCells [] [] [] [] [] (emptyEnv [])
    (by decide)
